import Mathlib

/-!
Verification of the pyBladed binary results reader (`pyBladed/results/binary.py`
together with `pyBladed/results/bladed_definitions.py`) against its natural
language specification.

The Python code is shallowly embedded: Python strings are Lean `String`s,
Python ints are `Int`, Python floats are modelled as exact decimal fractions
(`PyFloat`, compared by numeric value wherever the source compares floats;
`inf`/`nan` literals and IEEE rounding ties are out of scope, no claim
exercises them), numpy arrays are shape-plus-flat-list records whose elements
are the little-endian bit patterns of the stored machine words, files are
byte lists, and exceptions are explicit `PyErr` outcomes.
-/

/-- Python exception kinds raised by the reader. -/
inductive PyErr where
  | indexError
  | keyError
  | valueError
  | typeError
  | notImplementedError
  | fileNotFoundError
  deriving DecidableEq, Repr

instance {ε α : Type} [DecidableEq ε] [DecidableEq α] : DecidableEq (Except ε α) := fun a b =>
  match a, b with
  | .ok x, .ok y =>
      if h : x = y then isTrue (congrArg Except.ok h)
      else isFalse (fun hh => h (Except.ok.inj hh))
  | .error x, .error y =>
      if h : x = y then isTrue (congrArg Except.error h)
      else isFalse (fun hh => h (Except.error.inj hh))
  | .ok _, .error _ => isFalse (fun hh => Except.noConfusion hh)
  | .error _, .ok _ => isFalse (fun hh => Except.noConfusion hh)

/-- The ASCII apostrophe character, by code point. -/
def quoteChar : Char := Char.ofNat 39

/-- Python's `str.split` whitespace set (space, tab, newline, carriage return,
vertical tab, form feed). -/
def pyIsSpace (c : Char) : Bool :=
  c = ' ' || c = '\t' || c = '\n' || c = '\r' || c = Char.ofNat 11 || c = Char.ofNat 12

/-- Python `str.strip()` on a character list. -/
def pyStrip (l : List Char) : List Char :=
  ((l.dropWhile pyIsSpace).reverse.dropWhile pyIsSpace).reverse

/-- Python `line.split(maxsplit=1)` with no separator: leading whitespace is
dropped; the result is `[]` for an empty or all-whitespace string, `[tok]`
when only whitespace follows the first token, and `[tok, rest]` otherwise,
where `rest` keeps its trailing whitespace. -/
def splitMax1 (s : String) : List String :=
  let l := s.data.dropWhile pyIsSpace
  match l.takeWhile (fun c => !pyIsSpace c) with
  | [] => []
  | tok =>
    let rest := (l.dropWhile (fun c => !pyIsSpace c)).dropWhile pyIsSpace
    if rest.isEmpty then [String.mk tok] else [String.mk tok, String.mk rest]

/-- Split a list at every separator position given by `p`; separators are
dropped, and `n` separators yield `n+1` fields, empty fields included (the
behaviour of Python `str.split(sep)` with a one-character separator). -/
def splitP {α : Type} (p : α → Bool) : List α → List (List α)
  | [] => [[]]
  | c :: rest =>
    let r := splitP p rest
    if p c then [] :: r else (c :: r.headD []) :: r.tail

/-- Python `s.split(sep)` for a nonempty multi-character separator: scan left
to right, splitting at each non-overlapping occurrence.  The fuel argument
(the input length) only makes the recursion structural. -/
def splitSepFuel (sep : List Char) : Nat → List Char → List (List Char)
  | _, [] => [[]]
  | 0, l => [l]
  | fuel + 1, c :: rest =>
    if List.isPrefixOf sep (c :: rest) then
      [] :: splitSepFuel sep fuel ((c :: rest).drop sep.length)
    else
      let r := splitSepFuel sep fuel rest
      (c :: r.headD []) :: r.tail

/-- Python `s.split(sep)` for a nonempty separator string. -/
def pySplitSep (sep : String) (s : String) : List String :=
  (splitSepFuel sep.data s.data.length s.data).map String.mk

/-- Python `str.split()` with no arguments: split on whitespace runs,
dropping empty tokens. -/
def wsTokens (s : String) : List String :=
  ((splitP pyIsSpace s.data).filter (fun t => !t.isEmpty)).map String.mk

/-- Decimal value of a digit run. -/
def digitsVal (l : List Char) : Nat :=
  l.foldl (fun a c => a * 10 + (c.toNat - 48)) 0

/-- Python `int(s)`: strip whitespace, optional sign, then a nonempty digit
run (digit-group underscores are not modelled; no header uses them). -/
def pyInt? (s : String) : Option Int :=
  let l := pyStrip s.data
  let sd : Int × List Char :=
    match l with
    | '+' :: r => (1, r)
    | '-' :: r => (-1, r)
    | _ => (1, l)
  if !sd.2.isEmpty && sd.2.all Char.isDigit then some (sd.1 * (digitsVal sd.2 : Int)) else none

/-- A Python float as the exact decimal fraction `num * 10 ^ exp10`.  The
representation is not normalized (so all arithmetic stays kernel-computable);
wherever the source compares floats, the embedding compares numeric values
via `pfEq`. -/
structure PyFloat where
  num : Int
  exp10 : Int
  deriving DecidableEq, Repr

/-- Numeric equality of two `PyFloat` values. -/
def pfEq (a b : PyFloat) : Bool :=
  if b.exp10 ≤ a.exp10 then a.num * 10 ^ (a.exp10 - b.exp10).toNat = b.num
  else a.num = b.num * 10 ^ (b.exp10 - a.exp10).toNat

/-- Numeric equality of two Python float lists (`list == list`). -/
def pfListEq : List PyFloat → List PyFloat → Bool
  | [], [] => true
  | a :: as, b :: bs => pfEq a b && pfListEq as bs
  | _, _ => false

/-- Python `float(s)` as an exact decimal fraction: strip whitespace,
optional sign, `digits[.digits]` or `.digits`, optional exponent part. -/
def pyFloat? (s : String) : Option PyFloat :=
  let l := pyStrip s.data
  let sd : Int × List Char :=
    match l with
    | '+' :: r => (1, r)
    | '-' :: r => (-1, r)
    | _ => (1, l)
  let ip := sd.2.takeWhile Char.isDigit
  let l2 := sd.2.dropWhile Char.isDigit
  let fd : List Char × List Char :=
    match l2 with
    | '.' :: r => (r.takeWhile Char.isDigit, r.dropWhile Char.isDigit)
    | _ => ([], l2)
  if ip.isEmpty && fd.1.isEmpty then none
  else
    let mant : Int := sd.1 * ((digitsVal ip * 10 ^ fd.1.length + digitsVal fd.1 : Nat) : Int)
    match fd.2 with
    | [] => some { num := mant, exp10 := -(fd.1.length : Int) }
    | c :: r =>
      if c = 'e' || c = 'E' then
        let ed : Int × List Char :=
          match r with
          | '+' :: r2 => (1, r2)
          | '-' :: r2 => (-1, r2)
          | _ => (1, r)
        if !ed.2.isEmpty && ed.2.all Char.isDigit then
          some { num := mant,
                 exp10 := ed.1 * (digitsVal ed.2 : Int) - (fd.1.length : Int) }
        else none
      else none

/-- Helper: `List.dropWhile` never grows a list. -/
theorem len_dropWhile_le (p : Char → Bool) (l : List Char) :
    (l.dropWhile p).length ≤ l.length := by
  induction l with
  | nil => simp [List.dropWhile]
  | cons a l ih =>
    by_cases h : p a <;> simp [List.dropWhile, h] <;> omega

/-- Characters matched by the character class `[\w\s\-()/.]` of the VARIAB
regex in `_parse_header_line`, restricted to ASCII (header files are ASCII). -/
def isNameChar (c : Char) : Bool :=
  c.isAlphanum || c = '_' || pyIsSpace c || c = '-' || c = '(' || c = ')' || c = '/' || c = '.'

/-- Worker for `findNames`.  `acc = none` means the scanner is outside any
candidate match; `acc = some buf` means a quote has been opened and `buf`
holds the class characters read so far (reversed).  Because the character
class cannot match a quote, the regex engine's restart-one-past-the-opening-
quote backtracking is equivalent to this single pass. -/
def findNamesAux (acc : Option (List Char)) : List Char → List String
  | [] => []
  | c :: rest =>
    match acc with
    | none =>
      if c = quoteChar then findNamesAux (some []) rest
      else findNamesAux none rest
    | some buf =>
      if c = quoteChar then
        if buf.isEmpty then findNamesAux (some []) rest
        else String.mk buf.reverse :: findNamesAux none rest
      else if isNameChar c then findNamesAux (some (c :: buf)) rest
      else findNamesAux none rest

/-- Python `re.findall` for the quoted-name pattern used by the
`string-list-remove` conversion: every maximal occurrence of a quote, a
nonempty run of `[\w\s\-()/.]` characters, and a closing quote yields the
captured run; scanning resumes after the closing quote. -/
def findNames (l : List Char) : List String :=
  findNamesAux none l

/-- Python `rest.replace(quote, empty)`: drop every apostrophe. -/
def removeQuotes (s : String) : String :=
  String.mk (s.data.filter (fun c => c ≠ quoteChar))

/-- Decoded header values.  `FORMAT` stores its numpy dtype code as a plain
string, exactly as the Python code does. -/
inductive Value where
  | str (s : String)
  | strList (l : List String)
  | int (n : Int)
  | intList (l : List Int)
  | float (q : PyFloat)
  | floatList (l : List PyFloat)
  deriving DecidableEq, Repr

/-- The keyword schema of `bladed_definitions.py`: keyword to conversion tag,
mandatory keywords first, then optional ones (the Python module merges the two
dicts in that order). -/
def supportedKeywords : List (String × String) :=
  [("FILE", "string"), ("ACCESS", "string"), ("FORM", "string"),
   ("RECL", "int"), ("FORMAT", "numpy-dtype"), ("CONTENT", "string-remove"),
   ("CONFIG", "string-remove"), ("NDIMENS", "int"), ("DIMENS", "int-list"),
   ("GENLAB", "string-remove"), ("VARIAB", "string-list-remove"),
   ("VARUNIT", "string-list"),
   ("AXIVAL", "float-list"), ("AXISLAB", "string-remove"),
   ("AXIUNIT", "string"), ("AXIMETH", "int"), ("AXITICK", "string-list-remove"),
   ("MIN", "float"), ("STEP", "float"), ("NVARS", "int"), ("HEADREC", "int"),
   ("VAROFFSET", "float"), ("VARSCALE", "float-list")]

/-- Python dict lookup on an insertion-ordered association list (first match
wins; keys built by `dictSet` are unique). -/
def alookup {α : Type} (k : String) : List (String × α) → Option α
  | [] => none
  | (k2, v) :: rest => if k = k2 then some v else alookup k rest

/-- Outcome of parsing one header line.  `skipLine` and `keyErr` mirror the
`SkipLine` and `KeyError` exceptions that `_read_header` catches; `fatal`
covers every exception that propagates. -/
inductive LineOut where
  | ok (k : String) (v : Value)
  | skipLine
  | keyErr
  | fatal (e : PyErr)
  deriving DecidableEq, Repr

/-- The `numpy-dtype` conversion branch of `_parse_header_line` (binary.py
lines 141-149): the three Bladed format codes map to numpy little-endian
dtype strings; anything else raises `ValueError`. -/
def numpyDtypeDecode (rest : String) : Except PyErr String :=
  if rest = "R*4" then .ok "<f4"
  else if rest = "R*8" then .ok "<f8"
  else if rest = "I*4" then .ok "<i4"
  else .error .valueError

/-- Shallow embedding of `BladedResult._parse_header_line`: split the line at
the first whitespace run; one token raises `SkipLine`, no token at all makes
`split_str[0]` raise an (uncaught) `IndexError`; an unknown first token raises
`KeyError`; otherwise the value is decoded according to the keyword's
conversion tag. -/
def parseHeaderLine (line : String) (kws : List (String × String)) : LineOut :=
  match splitMax1 line with
  | [] => .fatal .indexError
  | [_] => .skipLine
  | keyword :: rest :: _ =>
    match alookup keyword kws with
    | none => .keyErr
    | some method =>
      if method = "string" then .ok keyword (.str rest)
      else if method = "string-remove" then .ok keyword (.str (removeQuotes rest))
      else if method = "string-list" then
        .ok keyword (.strList ((splitP (fun c => c = ' ') rest.data).map String.mk))
      else if method = "string-list-remove" then .ok keyword (.strList (findNames rest.data))
      else if method = "int" then
        match pyInt? rest with
        | some n => .ok keyword (.int n)
        | none => .fatal .valueError
      else if method = "int-list" then
        match (wsTokens rest).mapM pyInt? with
        | some ns => .ok keyword (.intList ns)
        | none => .fatal .valueError
      else if method = "float-list" then
        match (wsTokens rest).mapM pyFloat? with
        | some qs => .ok keyword (.floatList qs)
        | none => .fatal .valueError
      else if method = "float" then
        match pyFloat? rest with
        | some q => .ok keyword (.float q)
        | none => .fatal .valueError
      else if method = "numpy-dtype" then
        match numpyDtypeDecode rest with
        | .ok code => .ok keyword (.str code)
        | .error e => .fatal e
      else .fatal .notImplementedError

/-- Python dict assignment `d[k] = v` on an insertion-ordered association
list: an existing key keeps its position, a new key is appended. -/
def dictSet (d : List (String × Value)) (k : String) (v : Value) : List (String × Value) :=
  if d.any (fun p => p.1 = k) then
    d.map (fun p => if p.1 = k then (k, v) else p)
  else d ++ [(k, v)]

/-- Python dict lookup on the decoded header. -/
def dictGet (d : List (String × Value)) (k : String) : Option Value :=
  alookup k d

/-- Worker for `readHeader`: fold the lines, catching `SkipLine`/`KeyError`
and propagating every other exception, exactly as the try/except block of
`_read_header` does. -/
def readHeaderAux (kws : List (String × String)) (acc : List (String × Value)) :
    List String → Except PyErr (List (String × Value))
  | [] => .ok acc
  | line :: rest =>
    match parseHeaderLine line kws with
    | .ok k v => readHeaderAux kws (dictSet acc k v) rest
    | .skipLine => readHeaderAux kws acc rest
    | .keyErr => readHeaderAux kws acc rest
    | .fatal e => .error e

/-- Shallow embedding of `BladedResult._read_header` applied to the file's
lines (newlines already stripped, as the list comprehension in the source
does). -/
def readHeader (lines : List String) (kws : List (String × String)) :
    Except PyErr (List (String × Value)) :=
  readHeaderAux kws [] lines

/-- A numpy ndarray: declared shape, row-major flat element list (elements
are the little-endian bit patterns of the stored machine words) and the
identity of the underlying memory buffer.  `np.frombuffer` and `np.copy`
allocate fresh buffers; basic slicing shares the buffer of its base array. -/
structure NDArray where
  shape : List Nat
  flat : List Nat
  buf : Nat
  deriving DecidableEq, Repr

/-- One scanned header file: the decoded keyword dict plus the `data` payload
slot, which is `None` until `_load_dataset` runs. -/
structure HeaderRecord where
  kv : List (String × Value)
  data : Option NDArray
  deriving DecidableEq, Repr

/-- The mutable state of a `BladedResult` object after `scan()`.  The field
`resultPref` is `result_prefix` in the source.  `nextBuf` is the allocator
counter for fresh array buffers. -/
structure ResultState where
  resultDir : String
  resultPref : String
  unload : Bool
  results : List (String × HeaderRecord)
  nextBuf : Nat
  deriving DecidableEq, Repr

/-- The file system: full path to raw byte content. -/
abbrev FileSys := List (String × List Nat)

/-- `os.path.join` for POSIX paths as the reader uses it. -/
def joinPath (dir f : String) : String :=
  if f.data.head? = some '/' then f
  else if dir = "" then f
  else if dir.data.getLast? = some '/' then dir ++ f
  else dir ++ "/" ++ f

/-- Does `path` match the glob pattern `os.path.join(dir, pref + ".%*")`?
The `*` wildcard does not cross a path separator. -/
def globMatch (dir pref path : String) : Bool :=
  let base := (joinPath dir (pref ++ ".%")).data
  List.isPrefixOf base path.data && (path.data.drop base.length).all (fun c => c ≠ '/')

/-- Decode raw bytes as text lines the way `readlines()` plus the
newline-stripping comprehension does: split at LF; a trailing LF does not
produce a trailing empty line.  Byte-per-char decoding; the result files are
ASCII. -/
def asciiLines (bytes : List Nat) : List String :=
  let parts := (splitP (fun b => b = 10) bytes).map (fun b => String.mk (b.map Char.ofNat))
  match parts.getLast? with
  | some "" => parts.dropLast
  | _ => parts

/-- Worker for `chunkList`; the fuel argument (the input length) only makes
the recursion structural, since each step consumes at least one element. -/
def chunkFuel (k : Nat) : Nat → List Nat → List (List Nat)
  | _, [] => []
  | 0, _ => []
  | fuel + 1, c :: rest =>
    if k = 0 then []
    else (c :: rest).take k :: chunkFuel k fuel ((c :: rest).drop k)

/-- Split a byte list into consecutive groups of `k` bytes (`k > 0`). -/
def chunkList (k : Nat) (l : List Nat) : List (List Nat) :=
  chunkFuel k l.length l

/-- Little-endian value of one element's bytes. -/
def leVal (bs : List Nat) : Nat :=
  bs.foldr (fun b acc => b + 256 * acc) 0

/-- Byte width of a stored FORMAT value; only the three dtype codes the
parser can produce are meaningful, anything else makes `np.dtype` raise. -/
def dtypeSize : Value → Except PyErr Nat
  | .str "<f4" => .ok 4
  | .str "<f8" => .ok 8
  | .str "<i4" => .ok 4
  | _ => .error .typeError

/-- `np.frombuffer(bytes, dtype)`: the buffer length must be a whole number
of elements; elements are read little-endian. -/
def npFromBuffer (bytes : List Nat) (k : Nat) : Except PyErr (List Nat) :=
  if bytes.length % k = 0 then .ok ((chunkList k bytes).map leVal)
  else .error .valueError

/-- `np.reshape` on the element count: at most one `-1` (inferred) dimension,
no other negative dimensions, and the product must match the element count.
numpy's zero-size corner cases of `-1` inference are elided; Bladed `DIMENS`
extents are positive. -/
def npReshape (count : Nat) (dims : List Int) : Except PyErr (List Nat) :=
  if dims.any (fun d => d < -1) then .error .valueError
  else if (dims.filter (fun d => d = -1)).length ≥ 2 then .error .valueError
  else if (dims.filter (fun d => d = -1)).length = 1 then
    let p := ((dims.filter (fun d => d ≠ -1)).map Int.toNat).prod
    if p ≠ 0 ∧ count % p = 0 then
      .ok (dims.map (fun d => if d = -1 then count / p else d.toNat))
    else .error .valueError
  else
    if (dims.map Int.toNat).prod = count then .ok (dims.map Int.toNat)
    else .error .valueError

/-- Shallow embedding of `BladedResult._load_dataset` for one header file:
build the payload path from the FILE field, compute the shape as DIMENS
reversed, read the whole payload file, reinterpret it with the FORMAT dtype
and reshape.  The buffer id of the produced array is assigned by the caller
(`getitem`). -/
def loadDataset (fs : FileSys) (dir : String) (results : List (String × HeaderRecord))
    (h : String) : Except PyErr NDArray :=
  match alookup h results with
  | none => .error .keyError
  | some r =>
    match dictGet r.kv "FILE" with
    | none => .error .keyError
    | some (.str f) =>
      let path := joinPath dir f
      match dictGet r.kv "DIMENS" with
      | none => .error .keyError
      | some (.intList ds) =>
        match alookup path fs with
        | none => .error .fileNotFoundError
        | some bytes =>
          match dictGet r.kv "FORMAT" with
          | none => .error .keyError
          | some fmt =>
            match dtypeSize fmt with
            | .error e => .error e
            | .ok k =>
              match npFromBuffer bytes k with
              | .error e => .error e
              | .ok elems =>
                match npReshape elems.length ds.reverse with
                | .error e => .error e
                | .ok dims => .ok { shape := dims, flat := elems, buf := 0 }
      | some _ => .error .typeError
    | some _ => .error .typeError

/-- The slice tuple produced by `_find_dataset`: `(slice(None), slice(i,i+1))`
for 2-D data or `(slice(None), slice(None), slice(i,i+1))` for 3-D data. -/
inductive DSlice where
  | s2 (i : Nat)
  | s3 (i : Nat)
  deriving DecidableEq, Repr

/-- Shallow embedding of `BladedResult._find_dataset`: walk the header
records in insertion order, skip records without a VARIAB entry, and at the
first record whose VARIAB contains the name branch on NDIMENS (missing
NDIMENS raises an uncaught `KeyError`; any value other than 2 or 3 raises
`NotImplementedError`).  With the shipped schema VARIAB can only hold a
string list, so only that value shape is matched. -/
def findDataset : List (String × HeaderRecord) → String → Except PyErr (String × DSlice)
  | [], _ => .error .keyError
  | (k, r) :: rest, name =>
    match dictGet r.kv "VARIAB" with
    | some (.strList vars) =>
      if name ∈ vars then
        match dictGet r.kv "NDIMENS" with
        | none => .error .keyError
        | some (.int 2) => .ok (k, .s2 (vars.findIdx (fun v => v = name)))
        | some (.int 3) => .ok (k, .s3 (vars.findIdx (fun v => v = name)))
        | some _ => .error .notImplementedError
      else findDataset rest name
    | _ => findDataset rest name

/-- Length of the basic slice `i : i+1` over an axis of size `n` (numpy
clamps out-of-range slice bounds). -/
def sliceLen (i n : Nat) : Nat := min (i + 1) n - min i n

/-- Apply the 2-D index tuple `(slice(None), slice(i, i+1))`: axis 0 is kept
whole, axis 1 is sliced down to (at most) the single column `i`; any further
axes are untouched.  Fewer than two axes raise IndexError. -/
def npIndex2 (a : NDArray) (i : Nat) : Except PyErr NDArray :=
  match a.shape with
  | s0 :: s1 :: rest =>
    let inner := rest.prod
    let seg := sliceLen i s1
    .ok { shape := s0 :: seg :: rest
          flat := ((List.range s0).map (fun b =>
            ((a.flat.drop (b * (s1 * inner))).drop (i * inner)).take (seg * inner))).flatten
          buf := a.buf }
  | _ => .error .indexError

/-- Apply the 3-D index tuple `(slice(None), slice(None), slice(i, i+1))`. -/
def npIndex3 (a : NDArray) (i : Nat) : Except PyErr NDArray :=
  match a.shape with
  | s0 :: s1 :: s2 :: rest =>
    let inner := rest.prod
    let seg := sliceLen i s2
    .ok { shape := s0 :: s1 :: seg :: rest
          flat := ((List.range (s0 * s1)).map (fun b =>
            ((a.flat.drop (b * (s2 * inner))).drop (i * inner)).take (seg * inner))).flatten
          buf := a.buf }
  | _ => .error .indexError

/-- Apply the slice tuple from `_find_dataset` to the cached payload. -/
def npIndexSlice (a : NDArray) : DSlice → Except PyErr NDArray
  | .s2 i => npIndex2 a i
  | .s3 i => npIndex3 a i

/-- Python `self.results[h]['data'] = d`. -/
def setData (results : List (String × HeaderRecord)) (h : String) (d : Option NDArray) :
    List (String × HeaderRecord) :=
  results.map (fun p => if p.1 = h then (p.1, { p.2 with data := d }) else p)

/-- Worker for `scanResults`: parse each matched header file in order.  The
matched paths come from the glob, so they exist in the file system. -/
def scanHeaders (fs : FileSys) : List String → Except PyErr (List (String × HeaderRecord))
  | [] => .ok []
  | p :: ps =>
    match alookup p fs with
    | none => .error .fileNotFoundError
    | some bytes =>
      match readHeader (asciiLines bytes) supportedKeywords with
      | .error e => .error e
      | .ok kv =>
        match scanHeaders fs ps with
        | .error e => .error e
        | .ok rest => .ok ((p, { kv := kv, data := none }) :: rest)

/-- Shallow embedding of `BladedResult.scan()`: glob `dir/pref.%*`, fail with
`FileNotFoundError` when nothing matches, otherwise parse every matched
header file and store its record (payload slot `None`) under the header file
path. -/
def scanResults (fs : FileSys) (dir pref : String) :
    Except PyErr (List (String × HeaderRecord)) :=
  let matched := (fs.map Prod.fst).filter (globMatch dir pref)
  if matched.isEmpty then .error .fileNotFoundError
  else scanHeaders fs matched

/-- Substring membership, Python's `needle in s` on strings. -/
def hasSub (p : List Char) : List Char → Bool
  | [] => p.isEmpty
  | c :: rest => List.isPrefixOf p (c :: rest) || hasSub p rest

/-- Read one line by index; a missing index is an `IndexError`. -/
def lineAt (lines : List String) (i : Nat) : Except PyErr String :=
  match lines[i]? with
  | some l => .ok l
  | none => .error .indexError

/-- `float(line.split()[-1])`: the float value of a line's last whitespace
token. -/
def lastTokFloat (l : String) : Except PyErr PyFloat :=
  match (wsTokens l).getLast? with
  | none => .error .indexError
  | some t =>
    match pyFloat? t with
    | some q => .ok q
    | none => .error .valueError

/-- `int(line.split()[-1])`: the integer value of a line's last whitespace
token. -/
def lastTokInt (l : String) : Except PyErr Int :=
  match (wsTokens l).getLast? with
  | none => .error .indexError
  | some t =>
    match pyInt? t with
    | some n => .ok n
    | none => .error .valueError

/-- The comprehension `[[lines.index(s), int(s.split()[-1])] for s in lines
if marker in s][0]`: index of the first line containing `marker` and the
integer value of that line's last token; an empty comprehension raises
`IndexError`.  (An identical earlier line would itself contain the marker, so
`lines.index` is the first containing index.) -/
def findMarker (lines : List String) (marker : String) : Except PyErr (Nat × Int) :=
  match lines.findIdx? (fun l => hasSub marker.data l.data) with
  | none => .error .indexError
  | some i =>
    match lines[i]? with
    | none => .error .indexError
    | some l =>
      match lastTokInt l with
      | .error e => .error e
      | .ok n => .ok (i, n)

/-- One point block of the `.$CM` top part: operating value, frequency and
damping are the float of the respective line's last token; the participation
string is `line.split(quote)[1]`. -/
def readCMPoint (lines : List String) (start n : Nat) :
    Except PyErr (PyFloat × PyFloat × PyFloat × String) := do
  let lom ← lineAt lines (start + n * 4 + 1)
  let om ← lastTokFloat lom
  let lfr ← lineAt lines (start + n * 4 + 2)
  let fr ← lastTokFloat lfr
  let lda ← lineAt lines (start + n * 4 + 3)
  let da ← lastTokFloat lda
  let lp ← lineAt lines (start + n * 4 + 4)
  let ps ← match ((splitP (fun c => c = quoteChar) lp.data).map String.mk)[1]? with
    | some x => (pure x : Except PyErr String)
    | none => throw .indexError
  pure (om, fr, da, ps)

/-- The top-part loop of `_load_campbell_data_CM`: read `count` point blocks
starting at block index `n`. -/
def readCMPoints (lines : List String) (start : Nat) :
    Nat → Nat → Except PyErr (List (PyFloat × PyFloat × PyFloat × String))
  | 0, _ => .ok []
  | count + 1, n =>
    match readCMPoint lines start n with
    | .error e => .error e
    | .ok p =>
      match readCMPoints lines start count (n + 1) with
      | .error e => .error e
      | .ok rest => .ok (p :: rest)

/-- One Campbell mode-track record, the `mode_data` dict of the source. -/
structure ModeData where
  modeName : String
  freqTracked : List PyFloat
  nodeIDs : List Int
  omegas : List PyFloat
  freq : List PyFloat
  damp : List PyFloat
  participStr : List String
  deriving DecidableEq, Repr

/-- Normalize a Python index for a length-`len` list: negative indices count
from the end, bounds clamp. -/
def pyIdxNorm (len : Nat) (i : Int) : Nat :=
  if i < 0 then (len + i).toNat else min i.toNat len

/-- Python list slicing `l[a:b]`. -/
def pySliceList {α : Type} (l : List α) (a b : Int) : List α :=
  (l.take (pyIdxNorm l.length b)).drop (pyIdxNorm l.length a)

/-- `np.arange(a, b)` over Python ints, as a list. -/
def intRange (a b : Int) : List Int :=
  (List.range (b - a).toNat).map (fun n => a + n)

/-- One 5-line mode-track block of the `.$CM` bottom part, at block index `n`
with running point cursor `nodeID`: mode name from the DEFLEGEND line, the
comma-separated tracked frequencies (last element after the trailing comma is
dropped by `[:-1]`), the track's point count, and the next `npoints` entries
of the top-part lists. -/
def readCMTrack (lines : List String) (start : Nat) (omg fr da : List PyFloat)
    (ps : List String) (n : Nat) (nodeID : Int) : Except PyErr (ModeData × Int) := do
  let nameLine ← lineAt lines (start + n * 5 + 4)
  let modeName := String.mk (pyStrip ((pySplitSep "DEFLEGEND" nameLine).getLastD "").data)
  let ftLine ← lineAt lines (start + n * 5 + 3)
  let ftTok ← match (wsTokens ftLine).getLast? with
    | some t => (pure t : Except PyErr String)
    | none => throw .indexError
  let ftVals ← ((splitP (fun c => c = ',') ftTok.data).map String.mk).dropLast.mapM (fun t =>
    match pyFloat? t with
    | some q => (pure q : Except PyErr PyFloat)
    | none => throw .valueError)
  let npLine ← lineAt lines (start + n * 5 + 1)
  let npts ← lastTokInt npLine
  pure ({ modeName := modeName
          freqTracked := ftVals
          nodeIDs := intRange nodeID (nodeID + npts)
          omegas := pySliceList omg nodeID (nodeID + npts)
          freq := pySliceList fr nodeID (nodeID + npts)
          damp := pySliceList da nodeID (nodeID + npts)
          participStr := pySliceList ps nodeID (nodeID + npts) }, nodeID + npts)

/-- The bottom-part loop of `_load_campbell_data_CM`: read `count` mode-track
blocks, threading the running point cursor. -/
def readCMTracks (lines : List String) (start : Nat) (omg fr da : List PyFloat)
    (ps : List String) : Nat → Nat → Int → Except PyErr (List ModeData)
  | 0, _, _ => .ok []
  | count + 1, n, nodeID =>
    match readCMTrack lines start omg fr da ps n nodeID with
    | .error e => .error e
    | .ok (m, nodeID2) =>
      match readCMTracks lines start omg fr da ps count (n + 1) nodeID2 with
      | .error e => .error e
      | .ok rest => .ok (m :: rest)

/-- Shallow embedding of `_load_campbell_data_CM`: `(none, warning)` models
the `(None, None)` return for a missing `.$CM` file; otherwise the mode-track
records and mode names are assembled, and the final loop compares each
track's point frequencies with its tracked frequencies, printing (collected
here as the second component) one console warning per mismatching track. -/
def loadCampbellCM (fs : FileSys) (dir pref : String) :
    Except PyErr (Option (List ModeData × List String) × List String) :=
  match alookup (joinPath dir (pref ++ ".$CM")) fs with
  | none => .ok (none, ["file could not be found"])
  | some bytes =>
    let lines := asciiLines bytes
    match findMarker lines "NUMPTS" with
    | .error e => .error e
    | .ok (sTop, numpts) =>
      match readCMPoints lines sTop numpts.toNat 0 with
      | .error e => .error e
      | .ok pts =>
        let omg := pts.map (fun p => p.1)
        let fr := pts.map (fun p => p.2.1)
        let da := pts.map (fun p => p.2.2.1)
        let ps := pts.map (fun p => p.2.2.2)
        match findMarker lines "NUMLINES" with
        | .error e => .error e
        | .ok (sBot, numlines) =>
          match readCMTracks lines sBot omg fr da ps numlines.toNat 0 0 with
          | .error e => .error e
          | .ok modes =>
            let warns := (modes.filter (fun m => !pfListEq m.freq m.freqTracked)).map
              (fun _ => "frequency values do not match mode tracked frequency values")
            .ok (some (modes, modes.map (fun m => m.modeName)), warns)

/-- The value returned by `__getitem__`: a bare array for 2-D data, array
plus the (live) header record for 3-D data, or the Campbell pair (`none`
models `(None, None)`). -/
inductive GetOut where
  | arr2 (a : NDArray)
  | arr3 (a : NDArray) (hdr : HeaderRecord)
  | campbell (res : Option (List ModeData × List String))
  deriving DecidableEq, Repr

/-- Shallow embedding of `BladedResult.__getitem__`.  Returns the outcome,
the state after the call, and the number of binary payload reads the call
performed.  Console warnings from the Campbell path go to stdout in the
source and are dropped here.  The `lookup` mismatches marked unreachable
cannot occur for states whose `results` keys are the dict keys of the
source. -/
def getitem (fs : FileSys) (s : ResultState) (item : String) :
    Except PyErr GetOut × ResultState × Nat :=
  if item = "Campbell diagram" then
    match loadCampbellCM fs s.resultDir s.resultPref with
    | .error e => (.error e, s, 0)
    | .ok (res, _) => (.ok (.campbell res), s, 0)
  else
    match findDataset s.results item with
    | .error e => (.error e, s, 0)
    | .ok (h, sl) =>
      match alookup h s.results with
      | none => (.error .keyError, s, 0)  -- unreachable
      | some r =>
        let step : Except PyErr (ResultState × Nat) :=
          match r.data with
          | some _ => .ok (s, 0)
          | none =>
            match loadDataset fs s.resultDir s.results h with
            | .error e => .error e
            | .ok a =>
              .ok ({ s with results := setData s.results h (some { a with buf := s.nextBuf })
                            nextBuf := s.nextBuf + 1 }, 1)
        match step with
        | .error e => (.error e, s, 0)
        | .ok (s1, n) =>
          match alookup h s1.results with
          | none => (.error .keyError, s1, n)  -- unreachable
          | some r1 =>
            match r1.data with
            | none => (.error .typeError, s1, n)  -- unreachable
            | some a =>
              match npIndexSlice a sl with
              | .error e => (.error e, s1, n)
              | .ok view =>
                let c := { view with buf := s1.nextBuf }
                let s2 : ResultState := { s1 with nextBuf := s1.nextBuf + 1 }
                let s3 : ResultState :=
                  if s2.unload then { s2 with results := setData s2.results h none } else s2
                match alookup h s3.results with
                | none => (.error .keyError, s3, n)  -- unreachable
                | some r3 =>
                  if dictGet r3.kv "NDIMENS" = some (.int 3) then (.ok (.arr3 c r3), s3, n)
                  else (.ok (.arr2 c), s3, n)

/-! ## Helper lemmas -/

/-- Unfolding `setData` over a cons cell. -/
theorem setData_cons (k : String) (r : HeaderRecord) (rest : List (String × HeaderRecord))
    (h : String) (d : Option NDArray) :
    setData ((k, r) :: rest) h d =
      (if k = h then (k, { r with data := d }) else (k, r)) :: setData rest h d := rfl

/-- Updating the payload slot of `h` rewrites exactly the looked-up record. -/
theorem alookup_setData_self (results : List (String × HeaderRecord)) (h : String)
    (d : Option NDArray) :
    alookup h (setData results h d) =
      (alookup h results).map (fun r => { r with data := d }) := by
  induction results with
  | nil => simp [setData, alookup]
  | cons p rest ih =>
    obtain ⟨k, r⟩ := p
    by_cases hk : k = h
    · subst hk
      rw [setData_cons, if_pos rfl]
      simp [alookup]
    · rw [setData_cons, if_neg hk]
      simp [alookup, Ne.symm hk, ih]

/-- Updating the payload slot of `h` leaves every other key's record alone. -/
theorem alookup_setData_other (results : List (String × HeaderRecord)) (h k : String)
    (d : Option NDArray) (hk : k ≠ h) :
    alookup k (setData results h d) = alookup k results := by
  induction results with
  | nil => simp [setData]
  | cons p rest ih =>
    obtain ⟨k2, r⟩ := p
    by_cases h2 : k2 = h
    · subst h2
      rw [setData_cons, if_pos rfl]
      simp [alookup, hk, ih]
    · rw [setData_cons, if_neg h2]
      simp [alookup, ih]

/-- `_find_dataset` only reads the keyword dicts, so a payload-slot update
does not change its result. -/
theorem findDataset_setData (results : List (String × HeaderRecord)) (h name : String)
    (d : Option NDArray) :
    findDataset (setData results h d) name = findDataset results name := by
  induction results with
  | nil => simp [setData, findDataset]
  | cons p rest ih =>
    obtain ⟨k, r⟩ := p
    by_cases hk : k = h
    · subst hk
      rw [setData_cons, if_pos rfl]
      cases hv : dictGet r.kv "VARIAB" with
      | none => simp [findDataset, hv, ih]
      | some v =>
        cases v with
        | strList vars =>
          by_cases hm : name ∈ vars
          · simp [findDataset, hv, hm]
          · simp [findDataset, hv, hm, ih]
        | str s => simp [findDataset, hv, ih]
        | int n => simp [findDataset, hv, ih]
        | intList l => simp [findDataset, hv, ih]
        | float q => simp [findDataset, hv, ih]
        | floatList l => simp [findDataset, hv, ih]
    · rw [setData_cons, if_neg hk]
      cases hv : dictGet r.kv "VARIAB" with
      | none => simp [findDataset, hv, ih]
      | some v =>
        cases v with
        | strList vars =>
          by_cases hm : name ∈ vars
          · simp [findDataset, hv, hm]
          · simp [findDataset, hv, hm, ih]
        | str s => simp [findDataset, hv, ih]
        | int n => simp [findDataset, hv, ih]
        | intList l => simp [findDataset, hv, ih]
        | float q => simp [findDataset, hv, ih]
        | floatList l => simp [findDataset, hv, ih]

/-- A successful association-list lookup produces a member. -/
theorem alookup_mem {α : Type} {l : List (String × α)} {k : String} {v : α}
    (h : alookup k l = some v) : (k, v) ∈ l := by
  induction l with
  | nil => simp [alookup] at h
  | cons p rest ih =>
    obtain ⟨k2, v2⟩ := p
    rw [alookup] at h
    by_cases hk : k = k2
    · subst hk
      simp at h
      simp [h]
    · simp [hk] at h
      exact List.mem_cons_of_mem _ (ih h)

/-- Flattening a list of singletons is a map. -/
theorem flatten_map_singleton {α β : Type} (f : β → α) (l : List β) :
    (l.map (fun x => [f x])).flatten = l.map f := by
  induction l with
  | nil => rfl
  | cons a l ih => simp [ih]

/-- A one-element slice of a list at an in-bounds position. -/
theorem drop_take_one {α : Type} (l : List α) (n : Nat) (d : α) (h : n < l.length) :
    (l.drop n).take 1 = [l.getD n d] := by
  rw [List.drop_eq_getElem_cons h, List.getD_eq_getElem l d h]
  rfl

/-! ## C4: round-trip of the literal spec header -/

/-- The twelve literal header lines of the spec's round-trip scenario. -/
def c4Lines : List String :=
  ["FILE\tpowprod_12ms.$06", "ACCESS\tD", "FORM\tF", "RECL\t4", "FORMAT\tR*4",
   "CONTENT\t'POWPROD'", "CONFIG\t'STATIONARY'", "NDIMENS\t2", "DIMENS\t3\t20001",
   "GENLAB\t'Generator variables'",
   "VARIAB\t'Generator torque' 'Electrical power' 'Generator power loss'",
   "VARUNIT\tFL P P"]

/-- C4: parsing the twelve-line literal header text of the spec's round-trip
scenario produces a Header Record with DIMENS = [3, 20001], VARIAB = the
three generator channel names, NDIMENS = 2 and FORMAT = the 4-byte
little-endian float code `<f4`. -/
theorem c4_roundtrip_header :
    (readHeader c4Lines supportedKeywords).map (fun kv =>
      (dictGet kv "DIMENS", dictGet kv "VARIAB", dictGet kv "NDIMENS", dictGet kv "FORMAT")) =
    .ok (some (.intList [3, 20001]),
         some (.strList ["Generator torque", "Electrical power", "Generator power loss"]),
         some (.int 2),
         some (.str "<f4")) := by
  decide

/-! ## C6: FORMAT dtype decoding -/

/-- C6: the FORMAT decode maps `R*4`, `R*8`, `I*4` to the three little-endian
numpy dtype codes; it raises `ValueError` exactly on every other value token;
and in header-parsing context that failure is fatal (the whole parse errors)
rather than being skipped like an unknown keyword. -/
theorem c6_format_dtype :
    numpyDtypeDecode "R*4" = .ok "<f4" ∧
    numpyDtypeDecode "R*8" = .ok "<f8" ∧
    numpyDtypeDecode "I*4" = .ok "<i4" ∧
    (∀ t : String, (∃ e, numpyDtypeDecode t = .error e) ↔
      (t ≠ "R*4" ∧ t ≠ "R*8" ∧ t ≠ "I*4")) ∧
    (∀ t : String, t ≠ "R*4" → t ≠ "R*8" → t ≠ "I*4" →
      t.data ≠ [] → t.data.dropWhile pyIsSpace = t.data →
      readHeader ["FORMAT\t" ++ t] supportedKeywords = .error .valueError) := by
  refine ⟨rfl, rfl, rfl, ?_, ?_⟩
  · intro t
    constructor
    · rintro ⟨e, he⟩
      by_cases h4 : t = "R*4"
      · simp [numpyDtypeDecode, h4] at he
      by_cases h8 : t = "R*8"
      · simp [numpyDtypeDecode, h8] at he
      by_cases hi : t = "I*4"
      · simp [numpyDtypeDecode, hi] at he
      exact ⟨h4, h8, hi⟩
    · rintro ⟨h4, h8, hi⟩
      exact ⟨.valueError, by simp [numpyDtypeDecode, h4, h8, hi]⟩
  · intro t h4 h8 hi hne hnosp
    have hd : ("FORMAT\t" ++ t).data = 'F' :: 'O' :: 'R' :: 'M' :: 'A' :: 'T' :: '\t' :: t.data := by
      rw [String.data_append]
      rfl
    have hte : t.data.isEmpty = false := by
      cases ht : t.data with
      | nil => exact absurd ht hne
      | cons c cs => rfl
    have hsplit : splitMax1 ("FORMAT\t" ++ t) = ["FORMAT", t] := by
      unfold splitMax1
      rw [hd]
      simp [List.dropWhile_cons, List.takeWhile_cons, pyIsSpace, hnosp, hte]
    have hfmt : alookup "FORMAT" supportedKeywords = some "numpy-dtype" := rfl
    simp [readHeader, readHeaderAux, parseHeaderLine, hsplit, hfmt,
      numpyDtypeDecode, h4, h8, hi]

/-! ## C5: skippable header lines -/

/-- Lines whose parse outcome is one of the two caught exceptions contribute
nothing to `_read_header`: the fold over the remaining lines is unchanged. -/
theorem readHeaderAux_skip (kws : List (String × String)) (line : String)
    (hskip : parseHeaderLine line kws = .skipLine ∨ parseHeaderLine line kws = .keyErr)
    (xs ys : List String) (acc : List (String × Value)) :
    readHeaderAux kws acc (xs ++ line :: ys) = readHeaderAux kws acc (xs ++ ys) := by
  induction xs generalizing acc with
  | nil =>
    rcases hskip with h | h
    · simp [readHeaderAux, h]
    · simp [readHeaderAux, h]
  | cons x xs2 ih =>
    simp only [List.cons_append, readHeaderAux]
    cases parseHeaderLine x kws with
    | ok k v => exact ih (dictSet acc k v)
    | skipLine => exact ih acc
    | keyErr => exact ih acc
    | fatal e => rfl

/-- C5 (counterexample): an empty header line is not skipped — `split_str[0]`
raises an uncaught `IndexError`, so the whole parse fails, while parsing
without that line succeeds.  A whitespace-only line behaves the same way. -/
theorem c5_empty_line_counterexample :
    parseHeaderLine "" supportedKeywords = .fatal .indexError ∧
    parseHeaderLine "   " supportedKeywords = .fatal .indexError ∧
    readHeader ["RECL\t4", ""] supportedKeywords = .error .indexError ∧
    readHeader ["RECL\t4"] supportedKeywords = .ok [("RECL", .int 4)] := by
  exact ⟨rfl, rfl, rfl, rfl⟩

/-- C5 (amended): a line with exactly one token is skipped (`SkipLine`), a
line of two or more tokens whose first token is outside the keyword schema is
skipped (`KeyError`), and in both cases parsing a line list containing the
line yields exactly the Header Record of the list without it; but a line with
no token at all (empty or whitespace-only) raises an uncaught `IndexError`
instead of being skipped. -/
theorem c5_skip_line_amended (line : String) :
    (∀ t, splitMax1 line = [t] →
      parseHeaderLine line supportedKeywords = .skipLine) ∧
    (∀ t rest more, splitMax1 line = t :: rest :: more →
      alookup t supportedKeywords = none →
      parseHeaderLine line supportedKeywords = .keyErr) ∧
    (splitMax1 line = [] →
      parseHeaderLine line supportedKeywords = .fatal .indexError) ∧
    ((parseHeaderLine line supportedKeywords = .skipLine ∨
        parseHeaderLine line supportedKeywords = .keyErr) →
      ∀ xs ys, readHeader (xs ++ line :: ys) supportedKeywords =
        readHeader (xs ++ ys) supportedKeywords) := by
  refine ⟨?_, ?_, ?_, ?_⟩
  · intro t h
    unfold parseHeaderLine
    rw [h]
  · intro t rest more h hlk
    unfold parseHeaderLine
    rw [h]
    cases more with
    | nil => simp [hlk]
    | cons m ms => simp [hlk]
  · intro h
    unfold parseHeaderLine
    rw [h]
  · intro hs xs ys
    exact readHeaderAux_skip supportedKeywords line hs xs ys []

/-- Witness for the amended C5 claim at concrete inputs: the single-token line
`ABC` is skipped, and an unknown-keyword line drops out of the parse. -/
theorem c5_skip_line_amended_witness :
    parseHeaderLine "ABC" supportedKeywords = .skipLine ∧
    readHeader ["RECL\t4", "A B"] supportedKeywords =
      readHeader ["RECL\t4"] supportedKeywords := by
  constructor
  · exact (c5_skip_line_amended "ABC").1 "ABC" (by decide)
  · exact (c5_skip_line_amended "A B").2.2.2
      (Or.inr ((c5_skip_line_amended "A B").2.1 "A" "B" [] (by decide) (by decide)))
      ["RECL\t4"] []

/-! ## C7: scan -/

/-- Characterization of a successful `scanHeaders` run: records are stored in
glob order under the header file path, each with the parsed keyword dict and
an empty payload slot. -/
theorem scanHeaders_ok (fs : FileSys) (paths : List String)
    (rs : List (String × HeaderRecord)) (h : scanHeaders fs paths = .ok rs) :
    rs.map Prod.fst = paths ∧
    ∀ p ∈ rs, p.2.data = none ∧
      ∃ bytes, alookup p.1 fs = some bytes ∧
        readHeader (asciiLines bytes) supportedKeywords = .ok p.2.kv := by
  induction paths generalizing rs with
  | nil =>
    simp [scanHeaders] at h
    subst h
    simp
  | cons p ps ih =>
    rw [scanHeaders] at h
    cases hb : alookup p fs with
    | none => simp [hb] at h
    | some bytes =>
      simp only [hb] at h
      cases hr : readHeader (asciiLines bytes) supportedKeywords with
      | error e => simp [hr] at h
      | ok kv =>
        simp only [hr] at h
        cases hs : scanHeaders fs ps with
        | error e => simp [hs] at h
        | ok rest =>
          simp only [hs] at h
          injection h with h2
          subst h2
          obtain ⟨ih1, ih2⟩ := ih rest hs
          constructor
          · simp [ih1]
          · intro q hq
            cases hq with
            | head => exact ⟨rfl, bytes, hb, hr⟩
            | tail _ hq2 => exact ih2 q hq2

/-- C7: `scan()` raises `FileNotFoundError` when no file matches the glob
pattern `dir/pref.%*`; otherwise, on success, the stored records are keyed by
the matched header file paths in order, every record holds the parse of its
header file, and every payload slot is empty (no payload bytes were read). -/
theorem c7_scan (fs : FileSys) (dir pref : String) :
    ((fs.map Prod.fst).filter (globMatch dir pref) = [] →
      scanResults fs dir pref = .error .fileNotFoundError) ∧
    (∀ rs, scanResults fs dir pref = .ok rs →
      rs.map Prod.fst = (fs.map Prod.fst).filter (globMatch dir pref) ∧
      ∀ p ∈ rs, p.2.data = none ∧
        ∃ bytes, alookup p.1 fs = some bytes ∧
          readHeader (asciiLines bytes) supportedKeywords = .ok p.2.kv) := by
  constructor
  · intro hempty
    simp [scanResults, hempty]
  · intro rs hok
    unfold scanResults at hok
    by_cases hempty : ((fs.map Prod.fst).filter (globMatch dir pref)).isEmpty
    · rw [if_pos hempty] at hok
      exact absurd hok (by simp)
    · rw [if_neg hempty] at hok
      exact scanHeaders_ok fs _ rs hok

/-- Witness for C7: a tiny file system with one matching header file scans to
one record with an empty payload slot, and a file system with no matching
file raises `FileNotFoundError`. -/
theorem c7_scan_witness :
    scanResults [("d/run.%04", "RECL\t4\n".data.map Char.toNat)] "d" "run" =
      .ok [("d/run.%04", { kv := [("RECL", .int 4)], data := none })] ∧
    (.ok [("d/run.%04", { kv := [("RECL", .int 4)], data := none })] :
        Except PyErr (List (String × HeaderRecord))).map
      (fun rs => rs.map (fun p => p.2.data)) = .ok [none] ∧
    scanResults [("d/other.txt", [])] "d" "run" = .error .fileNotFoundError := by
  refine ⟨by decide, by decide, ?_⟩
  exact (c7_scan [("d/other.txt", [])] "d" "run").1 (by decide)

/-! ## C3: binary payload loading -/

/-- Element (i, j) of a 2-D array under numpy's row-major (C order) layout. -/
def ndGet2 (a : NDArray) (i j : Nat) : Option Nat :=
  match a.shape with
  | [_, s1] => a.flat[i * s1 + j]?
  | _ => none

/-- With all-nonnegative target dimensions, `np.reshape` reduces to the plain
product check (no `-1` inference). -/
theorem npReshape_nonneg (count : Nat) (dims : List Int) (hpos : ∀ d ∈ dims, 0 ≤ d) :
    npReshape count dims =
      if (dims.map Int.toNat).prod = count then .ok (dims.map Int.toNat)
      else .error .valueError := by
  unfold npReshape
  have h1 : dims.any (fun d => d < -1) = false := by
    simp only [List.any_eq_false, decide_eq_true_eq]
    intro d hd
    have := hpos d hd
    omega
  have h2 : dims.filter (fun d => d = -1) = [] := by
    rw [List.filter_eq_nil_iff]
    intro d hd
    have := hpos d hd
    simp
    omega
  rw [h1, h2]
  simp

/-- C3: for a header record with FILE, FORMAT and DIMENS fields, loading the
payload depends on the file system only through the whole byte content of the
single file `result_dir/FILE`; when the byte count is a whole number of
FORMAT-sized elements and the element count equals the product of the
(nonnegative) DIMENS extents, the result is the dense array whose shape is
DIMENS reversed and whose row-major contents are the little-endian decoded
elements, so the element at 2-D index (i, j) is file element
`i * DIMENS[0] + j` — the fastest-varying dimension in the file is DIMENS[0];
a byte-count/shape mismatch of either kind is a fatal `ValueError`. -/
theorem c3_load_dataset (fs : FileSys) (dir h : String)
    (results : List (String × HeaderRecord)) (r : HeaderRecord)
    (f : String) (ds : List Int) (fmt : Value) (k : Nat) (bytes : List Nat)
    (hr : alookup h results = some r)
    (hf : dictGet r.kv "FILE" = some (.str f))
    (hd : dictGet r.kv "DIMENS" = some (.intList ds))
    (hfmt : dictGet r.kv "FORMAT" = some fmt)
    (hk : dtypeSize fmt = .ok k)
    (hb : alookup (joinPath dir f) fs = some bytes)
    (hpos : ∀ d ∈ ds, 0 ≤ d) :
    (∀ fs2 : FileSys, alookup (joinPath dir f) fs2 = some bytes →
      loadDataset fs2 dir results h = loadDataset fs dir results h) ∧
    (bytes.length % k = 0 →
      (chunkList k bytes).length = (ds.map Int.toNat).prod →
      loadDataset fs dir results h =
        .ok { shape := ds.reverse.map Int.toNat,
              flat := (chunkList k bytes).map leVal, buf := 0 }) ∧
    (bytes.length % k = 0 →
      (chunkList k bytes).length ≠ (ds.map Int.toNat).prod →
      loadDataset fs dir results h = .error .valueError) ∧
    (bytes.length % k ≠ 0 →
      loadDataset fs dir results h = .error .valueError) ∧
    (∀ d0 d1 : Nat, ds = [(d0 : Int), (d1 : Int)] →
      bytes.length % k = 0 →
      (chunkList k bytes).length = d0 * d1 →
      ∃ arr, loadDataset fs dir results h = .ok arr ∧
        arr.shape = [d1, d0] ∧
        ∀ i j : Nat, ndGet2 arr i j = ((chunkList k bytes).map leVal)[i * d0 + j]?) := by
  have hgen : ∀ fs2 : FileSys, alookup (joinPath dir f) fs2 = some bytes →
      loadDataset fs2 dir results h =
        (match npFromBuffer bytes k with
         | .error e => .error e
         | .ok elems =>
           match npReshape elems.length ds.reverse with
           | .error e => .error e
           | .ok dims => .ok { shape := dims, flat := elems, buf := 0 }) := by
    intro fs2 hb2
    unfold loadDataset
    simp only [hr, hf, hd, hb2, hfmt, hk]
  have hposrev : ∀ d ∈ ds.reverse, 0 ≤ d := by
    intro d hdm
    exact hpos d (List.mem_reverse.mp hdm)
  have hprodrev : (ds.reverse.map Int.toNat).prod = (ds.map Int.toNat).prod := by
    rw [List.map_reverse, List.prod_reverse]
  refine ⟨fun fs2 hb2 => by rw [hgen fs2 hb2, hgen fs hb], ?_, ?_, ?_, ?_⟩
  · intro hmod hcount
    rw [hgen fs hb]
    simp only [npFromBuffer, if_pos hmod]
    rw [npReshape_nonneg _ _ hposrev]
    rw [List.length_map, hprodrev, if_pos hcount.symm]
  · intro hmod hcount
    rw [hgen fs hb]
    simp only [npFromBuffer, if_pos hmod]
    rw [npReshape_nonneg _ _ hposrev]
    rw [List.length_map, hprodrev, if_neg (fun hh => hcount hh.symm)]
  · intro hmod
    rw [hgen fs hb]
    simp only [npFromBuffer, if_neg hmod]
  · intro d0 d1 hds hmod hcount
    subst hds
    refine ⟨{ shape := [d1, d0], flat := (chunkList k bytes).map leVal, buf := 0 },
      ?_, rfl, ?_⟩
    · rw [hgen fs hb]
      simp only [npFromBuffer, if_pos hmod]
      rw [npReshape_nonneg _ _ hposrev]
      rw [List.length_map, hprodrev]
      have hpr : ((([(d0 : Int), (d1 : Int)].map Int.toNat)).prod) = (chunkList k bytes).length := by
        simp [hcount]
      rw [if_pos hpr]
      simp
    · intro i j
      simp [ndGet2]

/-- Witness for C3 at a concrete header record and payload: six little-endian
4-byte ints against DIMENS `[2, 3]` load as a (3, 2) array; element (i, j)
is file element `2 i + j`; a 23-byte file fails fatally. -/
theorem c3_load_dataset_witness :
    loadDataset [("d/run.$04", [1,0,0,0, 2,0,0,0, 3,0,0,0, 4,0,0,0, 5,0,0,0, 6,0,0,0])] "d"
        [("d/run.%04", { kv := [("FILE", .str "run.$04"), ("DIMENS", .intList [2, 3]),
                                ("FORMAT", .str "<i4")], data := none })] "d/run.%04" =
      .ok { shape := [3, 2], flat := [1, 2, 3, 4, 5, 6], buf := 0 } ∧
    ndGet2 { shape := [3, 2], flat := [1, 2, 3, 4, 5, 6], buf := 0 } 1 1 = some 4 ∧
    loadDataset [("d/run.$04", List.replicate 23 7)] "d"
        [("d/run.%04", { kv := [("FILE", .str "run.$04"), ("DIMENS", .intList [2, 3]),
                                ("FORMAT", .str "<i4")], data := none })] "d/run.%04" =
      .error .valueError := by
  refine ⟨?_, by decide, ?_⟩
  · have h := (c3_load_dataset
      [("d/run.$04", [1,0,0,0, 2,0,0,0, 3,0,0,0, 4,0,0,0, 5,0,0,0, 6,0,0,0])] "d" "d/run.%04"
      [("d/run.%04", { kv := [("FILE", .str "run.$04"), ("DIMENS", .intList [2, 3]),
                              ("FORMAT", .str "<i4")], data := none })]
      { kv := [("FILE", .str "run.$04"), ("DIMENS", .intList [2, 3]),
               ("FORMAT", .str "<i4")], data := none }
      "run.$04" [2, 3] (.str "<i4") 4 [1,0,0,0, 2,0,0,0, 3,0,0,0, 4,0,0,0, 5,0,0,0, 6,0,0,0]
      (by decide) (by decide) (by decide) (by decide) (by decide) (by decide) (by decide)).2.1
      (by decide) (by decide)
    exact h.trans (by decide)
  · have h := (c3_load_dataset
      [("d/run.$04", List.replicate 23 7)] "d" "d/run.%04"
      [("d/run.%04", { kv := [("FILE", .str "run.$04"), ("DIMENS", .intList [2, 3]),
                              ("FORMAT", .str "<i4")], data := none })]
      { kv := [("FILE", .str "run.$04"), ("DIMENS", .intList [2, 3]),
               ("FORMAT", .str "<i4")], data := none }
      "run.$04" [2, 3] (.str "<i4") 4 (List.replicate 23 7)
      (by decide) (by decide) (by decide) (by decide) (by decide) (by decide) (by decide)).2.2.2.1
      (by decide)
    exact h

/-- Witness for C6 at the concrete unknown token `X*9`: decoding fails and a
FORMAT line carrying it aborts the whole header parse with `ValueError`. -/
theorem c6_format_dtype_witness :
    (∃ e, numpyDtypeDecode "X*9" = Except.error e) ∧
    readHeader ["FORMAT\tX*9"] supportedKeywords = .error .valueError := by
  constructor
  · exact (c6_format_dtype.2.2.2.1 "X*9").mpr ⟨by decide, by decide, by decide⟩
  · exact c6_format_dtype.2.2.2.2 "X*9" (by decide) (by decide) (by decide)
      (by decide) (by decide)

/-! ## C9: Campbell diagram access -/

/-- C9: `get("Campbell diagram")` dispatches to the `.$CM` loader without
touching the stored header records (so no VARIAB lookup and no payload read,
and the outcome is unchanged under any replacement of the records); a missing
`.$CM` file yields the `(None, None)` result instead of an exception; and on
a successful parse the returned mode names are exactly the assembled tracks'
names while a track whose point frequencies differ from its tracked
frequencies only contributes a console warning — the records are returned
unchanged, one warning per mismatching track. -/
theorem c9_campbell (fs : FileSys) (s : ResultState) :
    (getitem fs s "Campbell diagram" =
      ((match loadCampbellCM fs s.resultDir s.resultPref with
        | .error e => .error e
        | .ok (res, _) => .ok (.campbell res)), s, 0) ∧
     ∀ rs2 : List (String × HeaderRecord),
       (getitem fs { s with results := rs2 } "Campbell diagram").1 =
       (getitem fs s "Campbell diagram").1) ∧
    (alookup (joinPath s.resultDir (s.resultPref ++ ".$CM")) fs = none →
      getitem fs s "Campbell diagram" = (.ok (.campbell none), s, 0)) ∧
    (∀ dir pref modes names ws,
      loadCampbellCM fs dir pref = .ok (some (modes, names), ws) →
      names = modes.map (fun m => m.modeName) ∧
      ws = (modes.filter (fun m => !pfListEq m.freq m.freqTracked)).map
        (fun _ => "frequency values do not match mode tracked frequency values") ∧
      ∀ m ∈ modes, pfListEq m.freq m.freqTracked = false → ws ≠ []) := by
  refine ⟨⟨?_, ?_⟩, ?_, ?_⟩
  · unfold getitem
    rw [if_pos rfl]
    cases hcm : loadCampbellCM fs s.resultDir s.resultPref with
    | error e => rfl
    | ok p => obtain ⟨res, w⟩ := p; rfl
  · intro rs2
    unfold getitem
    rw [if_pos rfl, if_pos rfl]
    cases hcm : loadCampbellCM fs s.resultDir s.resultPref with
    | error e => simp [hcm]
    | ok p => obtain ⟨res, w⟩ := p; simp [hcm]
  · intro hnone
    unfold getitem
    rw [if_pos rfl]
    unfold loadCampbellCM
    rw [hnone]
  · intro dir pref modes names ws hok
    unfold loadCampbellCM at hok
    cases hcm : alookup (joinPath dir (pref ++ ".$CM")) fs with
    | none => simp [hcm] at hok
    | some bytes =>
      simp only [hcm] at hok
      cases h1 : findMarker (asciiLines bytes) "NUMPTS" with
      | error e => simp [h1] at hok
      | ok p1 =>
        obtain ⟨sTop, numpts⟩ := p1
        simp only [h1] at hok
        cases h2 : readCMPoints (asciiLines bytes) sTop numpts.toNat 0 with
        | error e => simp [h2] at hok
        | ok pts =>
          simp only [h2] at hok
          cases h3 : findMarker (asciiLines bytes) "NUMLINES" with
          | error e => simp [h3] at hok
          | ok p3 =>
            obtain ⟨sBot, numlines⟩ := p3
            simp only [h3] at hok
            cases h4 : readCMTracks (asciiLines bytes) sBot
                (pts.map (fun p => p.1)) (pts.map (fun p => p.2.1))
                (pts.map (fun p => p.2.2.1)) (pts.map (fun p => p.2.2.2))
                numlines.toNat 0 0 with
            | error e => simp [h4] at hok
            | ok modes2 =>
              simp only [h4] at hok
              simp only [Except.ok.injEq, Prod.mk.injEq, Option.some.injEq] at hok
              obtain ⟨⟨hmods, hnames⟩, hws⟩ := hok
              subst hmods
              refine ⟨hnames.symm, hws.symm, ?_⟩
              intro m hm hne
              have hmem : m ∈ modes2.filter (fun m => !pfListEq m.freq m.freqTracked) := by
                rw [List.mem_filter]
                exact ⟨hm, by simp [hne]⟩
              have : ("frequency values do not match mode tracked frequency values" : String) ∈ ws := by
                rw [← hws]
                exact List.mem_map_of_mem _ hmem
              exact List.ne_nil_of_mem this

/-- Concrete `.$CM` companion file content used by the C9 witness, with a
track whose tracked frequency (2.5) differs from its point frequency (1.5). -/
def c9CMBytes : List Nat :=
  ("NUMPTS 1\nOM 1.0\nFR 1.5\nDA 0.1\nPS 'modeA'\nNUMLINES 1\nNP 1\nX 0\n" ++
   "FR 2.5,\nDEFLEGEND Mode 1\n").data.map Char.toNat

/-- A result-set state for the C9 witness. -/
def c9State : ResultState :=
  { resultDir := "d", resultPref := "run", unload := false, results := [], nextBuf := 0 }

/-- The single mode-track record parsed from `c9CMBytes`. -/
def c9Mode : ModeData :=
  { modeName := "Mode 1", freqTracked := [{ num := 25, exp10 := -1 }], nodeIDs := [0],
    omegas := [{ num := 10, exp10 := -1 }], freq := [{ num := 15, exp10 := -1 }],
    damp := [{ num := 1, exp10 := -1 }], participStr := ["modeA"] }

/-- Witness for C9: with no `.$CM` file present the sentinel name returns the
empty result without raising; with a mismatching track present the parse
still succeeds and a warning is emitted. -/
theorem c9_campbell_witness :
    getitem [] c9State "Campbell diagram" = (.ok (.campbell none), c9State, 0) ∧
    loadCampbellCM [("d/run.$CM", c9CMBytes)] "d" "run" =
      .ok (some ([c9Mode], ["Mode 1"]),
           ["frequency values do not match mode tracked frequency values"]) ∧
    ["frequency values do not match mode tracked frequency values"] ≠ ([] : List String) := by
  refine ⟨(c9_campbell [] c9State).2.1 (by decide), by decide, ?_⟩
  have hld : loadCampbellCM [("d/run.$CM", c9CMBytes)] "d" "run" =
      .ok (some ([c9Mode], ["Mode 1"]),
           ["frequency values do not match mode tracked frequency values"]) := by decide
  exact ((c9_campbell [("d/run.$CM", c9CMBytes)] c9State).2.2 "d" "run" [c9Mode] ["Mode 1"]
    ["frequency values do not match mode tracked frequency values"] hld).2.2
    c9Mode (by decide) (by decide)

/-! ## Slicing and resolution lemmas -/

/-- The common core of both slice applications: with a well-formed flat list
of `outer` rows of `sz` elements and an in-range column `i`, each row
contributes exactly its `i`-th element. -/
theorem segment_map (flat : List Nat) (outer sz i : Nat)
    (hl : flat.length = outer * sz) (hi : i < sz) :
    ((List.range outer).map (fun b =>
        ((flat.drop (b * (sz * 1))).drop (i * 1)).take (sliceLen i sz * 1))).flatten =
      (List.range outer).map (fun b => flat.getD (b * sz + i) 0) := by
  have hseg : sliceLen i sz = 1 := by
    unfold sliceLen
    rw [Nat.min_eq_left (by omega), Nat.min_eq_left (by omega)]
    omega
  have hrow : ∀ b ∈ List.range outer,
      ((flat.drop (b * (sz * 1))).drop (i * 1)).take (sliceLen i sz * 1) =
        [flat.getD (b * sz + i) 0] := by
    intro b hb
    rw [List.mem_range] at hb
    rw [hseg]
    simp only [mul_one, one_mul]
    rw [List.drop_drop]
    apply drop_take_one
    rw [hl]
    have h1 : b * sz + i < (b + 1) * sz := by
      rw [Nat.succ_mul]
      omega
    have h2 : (b + 1) * sz ≤ outer * sz := Nat.mul_le_mul_right sz hb
    omega
  rw [List.map_congr_left hrow, flatten_map_singleton]

/-- Successful 2-D column slice: shape `(n, 1)`, shared buffer, and entry `b`
equal to base entry `b * c + i`. -/
theorem npIndex2_ok (a : NDArray) (n c i : Nat) (hs : a.shape = [n, c])
    (hl : a.flat.length = n * c) (hi : i < c) :
    ∃ v, npIndex2 a i = .ok v ∧ v.shape = [n, 1] ∧ v.buf = a.buf ∧
      v.flat.length = n ∧ ∀ b, b < n → v.flat[b]? = a.flat[b * c + i]? := by
  have hseg : sliceLen i c = 1 := by
    unfold sliceLen
    rw [Nat.min_eq_left (by omega), Nat.min_eq_left (by omega)]
    omega
  have hflat := segment_map a.flat n c i (by simpa using hl) hi
  refine ⟨{ shape := [n, sliceLen i c],
            flat := (List.range n).map (fun b => a.flat.getD (b * c + i) 0),
            buf := a.buf }, ?_, by simp [hseg], rfl, by simp, ?_⟩
  · simp only [npIndex2, hs, List.prod_nil]
    rw [hflat]
  · intro b hb
    simp only []
    rw [List.getElem?_map, List.getElem?_range hb]
    have hidx : b * c + i < a.flat.length := by
      rw [hl]
      have h1 : b * c + i < (b + 1) * c := by rw [Nat.succ_mul]; omega
      have h2 : (b + 1) * c ≤ n * c := Nat.mul_le_mul_right c hb
      omega
    simp [List.getD_eq_getElem a.flat 0 hidx, List.getElem?_eq_getElem hidx]

/-- Successful 3-D channel slice: shape `(d0, d1, 1)`, shared buffer, and
flat entry `b` (for `b < d0 * d1`) equal to base entry `b * d2 + i`. -/
theorem npIndex3_ok (a : NDArray) (d0 d1 d2 i : Nat) (hs : a.shape = [d0, d1, d2])
    (hl : a.flat.length = (d0 * d1) * d2) (hi : i < d2) :
    ∃ v, npIndex3 a i = .ok v ∧ v.shape = [d0, d1, 1] ∧ v.buf = a.buf ∧
      v.flat.length = d0 * d1 ∧
      ∀ b, b < d0 * d1 → v.flat[b]? = a.flat[b * d2 + i]? := by
  have hseg : sliceLen i d2 = 1 := by
    unfold sliceLen
    rw [Nat.min_eq_left (by omega), Nat.min_eq_left (by omega)]
    omega
  have hflat := segment_map a.flat (d0 * d1) d2 i (by simpa using hl) hi
  refine ⟨{ shape := [d0, d1, sliceLen i d2],
            flat := (List.range (d0 * d1)).map (fun b => a.flat.getD (b * d2 + i) 0),
            buf := a.buf }, ?_, by simp [hseg], rfl, by simp, ?_⟩
  · simp only [npIndex3, hs, List.prod_nil]
    rw [hflat]
  · intro b hb
    simp only []
    rw [List.getElem?_map, List.getElem?_range hb]
    have hidx : b * d2 + i < a.flat.length := by
      rw [hl]
      have h1 : b * d2 + i < (b + 1) * d2 := by rw [Nat.succ_mul]; omega
      have h2 : (b + 1) * d2 ≤ (d0 * d1) * d2 := Nat.mul_le_mul_right d2 hb
      omega
    simp [List.getD_eq_getElem a.flat 0 hidx, List.getElem?_eq_getElem hidx]

/-- Does `_find_dataset` consider this record a match for `name`? -/
def recMatches (r : HeaderRecord) (name : String) : Bool :=
  match dictGet r.kv "VARIAB" with
  | some (.strList vars) => name ∈ vars
  | _ => false

/-- `_find_dataset` skips every non-matching record. -/
theorem findDataset_append_no_match (pre rest : List (String × HeaderRecord)) (name : String)
    (hpre : ∀ p ∈ pre, recMatches p.2 name = false) :
    findDataset (pre ++ rest) name = findDataset rest name := by
  induction pre with
  | nil => rfl
  | cons p pre2 ih =>
    obtain ⟨k, r⟩ := p
    have hm := hpre (k, r) (List.mem_cons_self _ _)
    have ih2 := ih (fun q hq => hpre q (List.mem_cons_of_mem _ hq))
    unfold recMatches at hm
    cases hv : dictGet r.kv "VARIAB" with
    | none => simpa [findDataset, hv] using ih2
    | some v =>
      cases v with
      | strList vars =>
        rw [hv] at hm
        simp only [decide_eq_false_iff_not] at hm
        simpa [findDataset, hv, hm] using ih2
      | str s => simpa [findDataset, hv] using ih2
      | int n => simpa [findDataset, hv] using ih2
      | intList l => simpa [findDataset, hv] using ih2
      | float q => simpa [findDataset, hv] using ih2
      | floatList l => simpa [findDataset, hv] using ih2

/-- On the first matching record, `_find_dataset` branches on NDIMENS. -/
theorem findDataset_cons_match (k : String) (r : HeaderRecord)
    (rest : List (String × HeaderRecord)) (name : String) (vars : List String)
    (hv : dictGet r.kv "VARIAB" = some (.strList vars)) (hm : name ∈ vars) :
    findDataset ((k, r) :: rest) name =
      match dictGet r.kv "NDIMENS" with
      | none => .error .keyError
      | some (.int 2) => .ok (k, .s2 (vars.findIdx (fun v => v = name)))
      | some (.int 3) => .ok (k, .s3 (vars.findIdx (fun v => v = name)))
      | some _ => .error .notImplementedError := by
  simp [findDataset, hv, hm]

/-- `list.index(x)` is the position of the first occurrence. -/
theorem findIdx_first (vars : List String) (name : String) (i : Nat)
    (hi : vars[i]? = some name) (hfirst : ∀ j, j < i → vars[j]? ≠ some name) :
    vars.findIdx (fun v => v = name) = i := by
  induction vars generalizing i with
  | nil => simp at hi
  | cons v vs ih =>
    cases i with
    | zero =>
      simp at hi
      subst hi
      simp [List.findIdx_cons]
    | succ i2 =>
      have hv0 : ¬ v = name := by
        have h0 := hfirst 0 (Nat.succ_pos _)
        simpa using h0
      simp only [List.getElem?_cons_succ] at hi
      rw [List.findIdx_cons]
      have hrec := ih i2 hi (fun j hj => by
        have := hfirst (j + 1) (by omega)
        simpa using this)
      simp [hv0, hrec]

/-- Two successive payload-slot updates on the same key collapse. -/
theorem setData_setData (rs : List (String × HeaderRecord)) (h : String)
    (d1 d2 : Option NDArray) :
    setData (setData rs h d1) h d2 = setData rs h d2 := by
  induction rs with
  | nil => rfl
  | cons p rest ih =>
    obtain ⟨k, r⟩ := p
    by_cases hk : k = h
    · subst hk
      rw [setData_cons, if_pos rfl, setData_cons, if_pos rfl, setData_cons, if_pos rfl]
      simp [ih]
    · rw [setData_cons, if_neg hk, setData_cons, if_neg hk, setData_cons, if_neg hk]
      simp [ih]

/-- `__getitem__` when the name resolution fails: the exception propagates
and nothing is touched. -/
theorem getitem_find_error (fs : FileSys) (s : ResultState) (item : String) (e : PyErr)
    (hnc : ¬ item = "Campbell diagram")
    (hfind : findDataset s.results item = .error e) :
    getitem fs s item = (.error e, s, 0) := by
  unfold getitem
  rw [if_neg hnc]
  simp [hfind]

/-- `__getitem__` when the payload slot is empty and the load fails: the
exception propagates with no state change and no completed read counted. -/
theorem getitem_load_error (fs : FileSys) (s : ResultState) (item h : String) (sl : DSlice)
    (r : HeaderRecord) (e : PyErr)
    (hnc : ¬ item = "Campbell diagram")
    (hfind : findDataset s.results item = .ok (h, sl))
    (hlook : alookup h s.results = some r)
    (hdata : r.data = none)
    (hload : loadDataset fs s.resultDir s.results h = .error e) :
    getitem fs s item = (.error e, s, 0) := by
  unfold getitem
  rw [if_neg hnc]
  simp [hfind, hlook, hdata, hload]

/-- Anatomy of a successful `__getitem__` call whose payload is already
cached: no payload read happens, the returned array is the fresh copy of the
slice, the header record is returned alongside exactly when NDIMENS is 3,
and the only state changes are the buffer counter and — under the unload
flag — the cleared payload slot. -/
theorem getitem_cached (fs : FileSys) (s : ResultState) (item h : String) (sl : DSlice)
    (r : HeaderRecord) (a view : NDArray)
    (hnc : ¬ item = "Campbell diagram")
    (hfind : findDataset s.results item = .ok (h, sl))
    (hlook : alookup h s.results = some r)
    (hdata : r.data = some a)
    (hslice : npIndexSlice a sl = .ok view) :
    getitem fs s item =
      ((if dictGet r.kv "NDIMENS" = some (.int 3) then
         .ok (.arr3 { view with buf := s.nextBuf }
           (if s.unload then { r with data := none } else r))
       else .ok (.arr2 { view with buf := s.nextBuf })),
       (if s.unload then
         { s with results := setData s.results h none, nextBuf := s.nextBuf + 1 }
        else { s with nextBuf := s.nextBuf + 1 }),
       0) := by
  unfold getitem
  rw [if_neg hnc]
  simp only [hfind, hlook, hdata, hslice]
  cases hu : s.unload with
  | false =>
    simp only [hu, Bool.false_eq_true, if_false]
    rw [hlook]
    simp only [hdata, hslice]
    by_cases hnd : dictGet r.kv "NDIMENS" = some (.int 3)
    · simp [hnd]
    · simp [hnd]
  | true =>
    simp only [hu, if_true]
    have hset : alookup h (setData s.results h none) = some { r with data := none } := by
      rw [alookup_setData_self, hlook]
      rfl
    simp only [hset]
    by_cases hnd : dictGet r.kv "NDIMENS" = some (.int 3)
    · simp [hnd]
    · simp [hnd]

/-- Anatomy of a successful `__getitem__` call that has to load the payload
first: exactly one payload read happens, the loaded array (with a fresh
buffer) fills the payload slot, the returned array is the fresh copy of the
slice, and under the unload flag the slot is cleared again before return. -/
theorem getitem_load (fs : FileSys) (s : ResultState) (item h : String) (sl : DSlice)
    (r : HeaderRecord) (a0 view : NDArray)
    (hnc : ¬ item = "Campbell diagram")
    (hfind : findDataset s.results item = .ok (h, sl))
    (hlook : alookup h s.results = some r)
    (hdata : r.data = none)
    (hload : loadDataset fs s.resultDir s.results h = .ok a0)
    (hslice : npIndexSlice { a0 with buf := s.nextBuf } sl = .ok view) :
    getitem fs s item =
      ((if dictGet r.kv "NDIMENS" = some (.int 3) then
         .ok (.arr3 { view with buf := s.nextBuf + 1 }
           (if s.unload then { r with data := none }
            else { r with data := some { a0 with buf := s.nextBuf } }))
       else .ok (.arr2 { view with buf := s.nextBuf + 1 })),
       (if s.unload then
         { s with results := setData s.results h none, nextBuf := s.nextBuf + 1 + 1 }
        else { s with
               results := setData s.results h (some { a0 with buf := s.nextBuf }),
               nextBuf := s.nextBuf + 1 + 1 }),
       1) := by
  unfold getitem
  rw [if_neg hnc]
  simp only [hfind, hlook, hdata, hload]
  have hset1 : alookup h (setData s.results h (some { a0 with buf := s.nextBuf })) =
      some { r with data := some { a0 with buf := s.nextBuf } } := by
    rw [alookup_setData_self, hlook]
    rfl
  cases hu : s.unload with
  | false =>
    simp only [hu, Bool.false_eq_true, if_false, hset1, hslice]
    by_cases hnd : dictGet r.kv "NDIMENS" = some (.int 3)
    · simp [hnd, hset1]
    · simp [hnd, hset1]
  | true =>
    have hset3 : alookup h (setData s.results h none) = some { r with data := none } := by
      rw [alookup_setData_self, hlook]
      rfl
    simp only [hu, if_true, hset1, hslice, setData_setData, hset3]
    by_cases hnd : dictGet r.kv "NDIMENS" = some (.int 3)
    · simp [hnd]
    · simp [hnd]

/-- Lookup skips a prefix that does not carry the key. -/
theorem alookup_append {α : Type} (pre rest : List (String × α)) (k : String)
    (hk : ∀ p ∈ pre, p.1 ≠ k) :
    alookup k (pre ++ rest) = alookup k rest := by
  induction pre with
  | nil => rfl
  | cons p pre2 ih =>
    obtain ⟨k2, v⟩ := p
    have hne := hk (k2, v) (List.mem_cons_self _ _)
    rw [List.cons_append, alookup, if_neg (fun hh => hne hh.symm)]
    exact ih (fun q hq => hk q (List.mem_cons_of_mem _ hq))

/-! ## C1: name resolution and slicing in `get(name)` -/

/-- C1: `get(name)` (for a non-sentinel name) resolves the name by walking
the Header Records in order, skipping records without a VARIAB list; with the
first record whose VARIAB contains the name at first position `i`: if that
record's NDIMENS is 2 and its cached 2-D payload has shape `(n, c)` with
`i < c`, only an array of shape `(n, 1)` is returned, holding column `i`
(entry `b` is payload entry `b * c + i`) — `n` is the sample count since the
payload shape is DIMENS reversed; if NDIMENS is 3 with cached payload shape
`(d0, d1, d2)` and `i < d2`, an array of shape `(d0, d1, 1)` holding channel
`i` of the last axis is returned together with the full decoded Header
Record; if NDIMENS holds an integer other than 2 or 3 the call fails with
the unsupported-dimensionality `NotImplementedError`; and if no record's
VARIAB contains the name the call fails with the not-found `KeyError`. -/
theorem c1_get_semantics (fs : FileSys) (s : ResultState) (name : String)
    (hnc : name ≠ "Campbell diagram") :
    ((∀ p ∈ s.results, recMatches p.2 name = false) →
      getitem fs s name = (.error .keyError, s, 0)) ∧
    (∀ pre post k r vars i,
      s.results = pre ++ (k, r) :: post →
      (∀ p ∈ pre, recMatches p.2 name = false) →
      (∀ p ∈ pre, p.1 ≠ k) →
      dictGet r.kv "VARIAB" = some (.strList vars) →
      vars[i]? = some name →
      (∀ j, j < i → vars[j]? ≠ some name) →
      ((dictGet r.kv "NDIMENS" = some (.int 2) →
        ∀ a n c, r.data = some a → a.shape = [n, c] → a.flat.length = n * c → i < c →
        ∃ out s2, getitem fs s name = (.ok (.arr2 out), s2, 0) ∧
          out.shape = [n, 1] ∧
          ∀ b, b < n → out.flat[b]? = a.flat[b * c + i]?) ∧
       (dictGet r.kv "NDIMENS" = some (.int 3) →
        ∀ a d0 d1 d2, r.data = some a → a.shape = [d0, d1, d2] →
          a.flat.length = (d0 * d1) * d2 → i < d2 →
        ∃ out hdr s2, getitem fs s name = (.ok (.arr3 out hdr), s2, 0) ∧
          out.shape = [d0, d1, 1] ∧ hdr.kv = r.kv ∧
          ∀ b, b < d0 * d1 → out.flat[b]? = a.flat[b * d2 + i]?) ∧
       (∀ m : Int, dictGet r.kv "NDIMENS" = some (.int m) → m ≠ 2 → m ≠ 3 →
        getitem fs s name = (.error .notImplementedError, s, 0)))) := by
  constructor
  · intro hnone
    have hfind : findDataset s.results name = .error .keyError := by
      have := findDataset_append_no_match s.results [] name (by simpa using hnone)
      simpa using this
    exact getitem_find_error fs s name .keyError hnc hfind
  · intro pre post k r vars i hres hpre hkeys hv hi hfirst
    have hmem : name ∈ vars := by
      obtain ⟨hlt, hEq⟩ := List.getElem?_eq_some.mp hi
      exact hEq ▸ vars.getElem_mem hlt
    have hidx : vars.findIdx (fun v => v = name) = i := findIdx_first vars name i hi hfirst
    have hfind0 : findDataset s.results name =
        match dictGet r.kv "NDIMENS" with
        | none => .error .keyError
        | some (.int 2) => .ok (k, .s2 i)
        | some (.int 3) => .ok (k, .s3 i)
        | some _ => .error .notImplementedError := by
      rw [hres, findDataset_append_no_match pre _ name hpre,
        findDataset_cons_match k r post name vars hv hmem, hidx]
    have hlook : alookup k s.results = some r := by
      rw [hres, alookup_append pre _ k hkeys, alookup, if_pos rfl]
    refine ⟨?_, ?_, ?_⟩
    · intro hnd a n c hdata hshape hlen hic
      have hfind : findDataset s.results name = .ok (k, .s2 i) := by
        rw [hfind0, hnd]
        rfl
      obtain ⟨v, hsv, hvshape, _, _, hentry⟩ := npIndex2_ok a n c i hshape hlen hic
      have hslice : npIndexSlice a (.s2 i) = .ok v := hsv
      have hget := getitem_cached fs s name k (.s2 i) r a v hnc hfind hlook hdata hslice
      have hnd3 : ¬ dictGet r.kv "NDIMENS" = some (.int 3) := by
        rw [hnd]
        simp
      rw [if_neg hnd3] at hget
      refine ⟨{ v with buf := s.nextBuf }, _, hget, by simpa using hvshape, ?_⟩
      intro b hb
      simpa using hentry b hb
    · intro hnd a d0 d1 d2 hdata hshape hlen hic
      have hfind : findDataset s.results name = .ok (k, .s3 i) := by
        rw [hfind0, hnd]
        rfl
      obtain ⟨v, hsv, hvshape, _, _, hentry⟩ := npIndex3_ok a d0 d1 d2 i hshape hlen hic
      have hslice : npIndexSlice a (.s3 i) = .ok v := hsv
      have hget := getitem_cached fs s name k (.s3 i) r a v hnc hfind hlook hdata hslice
      rw [if_pos hnd] at hget
      refine ⟨{ v with buf := s.nextBuf },
        (if s.unload then { r with data := none } else r), _, hget,
        by simpa using hvshape, ?_, ?_⟩
      · by_cases hu : s.unload = true
        · simp [hu]
        · simp [hu]
      · intro b hb
        simpa using hentry b hb
    · intro m hnd hm2 hm3
      have hfind : findDataset s.results name = .error .notImplementedError := by
        rw [hfind0, hnd]
        split
        · rename_i heq
          exact Option.noConfusion heq
        · rename_i heq
          injection heq with h1
          injection h1 with h2
          exact absurd h2 hm2
        · rename_i heq
          injection heq with h1
          injection h1 with h2
          exact absurd h2 hm3
        · rfl
      exact getitem_find_error fs s name .notImplementedError hnc hfind

/-- Keyword dict of the C1 witness record: a 2-D dataset with channels A, B. -/
def c1Kv2 : List (String × Value) :=
  [("NDIMENS", .int 2), ("VARIAB", .strList ["A", "B"])]

/-- Cached payload of the C1 witness: shape (3, 2), entries 1..6. -/
def c1Arr : NDArray := { shape := [3, 2], flat := [1, 2, 3, 4, 5, 6], buf := 0 }

/-- Result-set state of the C1 witness. -/
def c1State : ResultState :=
  { resultDir := "d", resultPref := "run", unload := false,
    results := [("hdr", { kv := c1Kv2, data := some c1Arr })], nextBuf := 1 }

/-- Witness for C1: requesting channel B (position 1) of the cached 2-D
payload returns the single column `b * 2 + 1` with shape (3, 1). -/
theorem c1_get_semantics_witness :
    ∃ out s2, getitem ([] : FileSys) c1State "B" = (.ok (.arr2 out), s2, 0) ∧
      out.shape = [3, 1] ∧ ∀ b, b < 3 → out.flat[b]? = c1Arr.flat[b * 2 + 1]? := by
  exact ((c1_get_semantics [] c1State "B" (by decide)).2 [] [] "hdr"
    { kv := c1Kv2, data := some c1Arr } ["A", "B"] 1 rfl (by simp) (by simp)
    (by decide) (by decide)
    (fun j hj => by
      have hj0 : j = 0 := by omega
      subst hj0
      decide)).1 (by decide) c1Arr 3 2 rfl rfl (by decide) (by decide)

/-! ## C2: the payload cache state machine -/

/-- `__getitem__` when the cached payload fails to slice: the exception
propagates after zero reads. -/
theorem getitem_cached_slice_error (fs : FileSys) (s : ResultState) (item h : String)
    (sl : DSlice) (r : HeaderRecord) (a : NDArray) (e : PyErr)
    (hnc : ¬ item = "Campbell diagram")
    (hfind : findDataset s.results item = .ok (h, sl))
    (hlook : alookup h s.results = some r)
    (hdata : r.data = some a)
    (hsl : npIndexSlice a sl = .error e) :
    getitem fs s item = (.error e, s, 0) := by
  unfold getitem
  rw [if_neg hnc]
  simp [hfind, hlook, hdata, hsl]

/-- `__getitem__` when the freshly loaded payload fails to slice: the read
already happened and the loaded array stays cached. -/
theorem getitem_load_slice_error (fs : FileSys) (s : ResultState) (item h : String)
    (sl : DSlice) (r : HeaderRecord) (a0 : NDArray) (e : PyErr)
    (hnc : ¬ item = "Campbell diagram")
    (hfind : findDataset s.results item = .ok (h, sl))
    (hlook : alookup h s.results = some r)
    (hdata : r.data = none)
    (hload : loadDataset fs s.resultDir s.results h = .ok a0)
    (hsl : npIndexSlice { a0 with buf := s.nextBuf } sl = .error e) :
    getitem fs s item =
      (.error e,
       { s with results := setData s.results h (some { a0 with buf := s.nextBuf }),
                nextBuf := s.nextBuf + 1 },
       1) := by
  unfold getitem
  rw [if_neg hnc]
  simp only [hfind, hlook, hdata, hload]
  have hset1 : alookup h (setData s.results h (some { a0 with buf := s.nextBuf })) =
      some { r with data := some { a0 with buf := s.nextBuf } } := by
    rw [alookup_setData_self, hlook]
    rfl
  simp [hset1, hsl]

/-- A successful `__getitem__` call performs exactly one payload read when
the slot was empty (caching the loaded array, then clearing it again under
the unload flag) and none when it was filled (clearing the slot under the
unload flag). -/
theorem getitem_ok_cases (fs : FileSys) (s : ResultState) (item h : String) (sl : DSlice)
    (r : HeaderRecord) (g : GetOut) (s' : ResultState) (n : Nat)
    (hnc : ¬ item = "Campbell diagram")
    (hfind : findDataset s.results item = .ok (h, sl))
    (hlook : alookup h s.results = some r)
    (hget : getitem fs s item = (.ok g, s', n)) :
    (r.data = none → n = 1 ∧ ∃ a0,
      loadDataset fs s.resultDir s.results h = .ok a0 ∧
      s' = (if s.unload then
              { s with results := setData s.results h none, nextBuf := s.nextBuf + 1 + 1 }
            else { s with
                   results := setData s.results h (some { a0 with buf := s.nextBuf }),
                   nextBuf := s.nextBuf + 1 + 1 })) ∧
    (∀ a, r.data = some a → n = 0 ∧
      s' = (if s.unload then
              { s with results := setData s.results h none, nextBuf := s.nextBuf + 1 }
            else { s with nextBuf := s.nextBuf + 1 })) := by
  constructor
  · intro hdata
    cases hload : loadDataset fs s.resultDir s.results h with
    | error e =>
      rw [getitem_load_error fs s item h sl r e hnc hfind hlook hdata hload] at hget
      simp at hget
    | ok a0 =>
      cases hsl : npIndexSlice { a0 with buf := s.nextBuf } sl with
      | error e =>
        rw [getitem_load_slice_error fs s item h sl r a0 e hnc hfind hlook hdata hload hsl]
          at hget
        simp at hget
      | ok view =>
        rw [getitem_load fs s item h sl r a0 view hnc hfind hlook hdata hload hsl] at hget
        simp only [Prod.mk.injEq] at hget
        exact ⟨hget.2.2.symm, a0, rfl, hget.2.1.symm⟩
  · intro a hdata
    cases hsl : npIndexSlice a sl with
    | error e =>
      rw [getitem_cached_slice_error fs s item h sl r a e hnc hfind hlook hdata hsl] at hget
      simp at hget
    | ok view =>
      rw [getitem_cached fs s item h sl r a view hnc hfind hlook hdata hsl] at hget
      simp only [Prod.mk.injEq] at hget
      exact ⟨hget.2.2.symm, hget.2.1.symm⟩

/-- C2: for two successive successful `get` calls on the same name, resolved
to header `h` whose record is `r`: with unload=False, a first call that finds
the payload slot empty performs exactly one read, afterwards the slot is
filled, and the second call performs no read (one read total for the pair);
with unload=True, the slot is empty again right after each call — whether or
not that call triggered the load — and the second call performs a fresh
read. -/
theorem c2_payload_cache (fs : FileSys) (s : ResultState) (item h : String) (sl : DSlice)
    (r : HeaderRecord) (o1 o2 : GetOut) (s1 s2 : ResultState) (n1 n2 : Nat)
    (hnc : ¬ item = "Campbell diagram")
    (hfind : findDataset s.results item = .ok (h, sl))
    (hlook : alookup h s.results = some r)
    (hc1 : getitem fs s item = (.ok o1, s1, n1))
    (hc2 : getitem fs s1 item = (.ok o2, s2, n2)) :
    (s.unload = false →
      (r.data = none → n1 = 1) ∧
      ((alookup h s1.results).bind (fun q => q.data)).isSome ∧
      n2 = 0) ∧
    (s.unload = true →
      (alookup h s1.results).bind (fun q => q.data) = none ∧
      (alookup h s2.results).bind (fun q => q.data) = none ∧
      n2 = 1) := by
  have cases1 := getitem_ok_cases fs s item h sl r o1 s1 n1 hnc hfind hlook hc1
  cases hdata : r.data with
  | none =>
    obtain ⟨hn1, a0, hload, hs1⟩ := cases1.1 hdata
    constructor
    · intro hu
      rw [if_neg (by simp [hu])] at hs1
      subst hs1
      have hslot : alookup h (setData s.results h (some { a0 with buf := s.nextBuf })) =
          some { r with data := some { a0 with buf := s.nextBuf } } := by
        rw [alookup_setData_self, hlook]
        rfl
      refine ⟨fun _ => hn1, by simp [hslot], ?_⟩
      have hfind2 : findDataset (setData s.results h (some { a0 with buf := s.nextBuf }))
          item = .ok (h, sl) := by
        rw [findDataset_setData]
        exact hfind
      have cases2 := getitem_ok_cases fs _ item h sl
        { r with data := some { a0 with buf := s.nextBuf } } o2 s2 n2 hnc hfind2 hslot hc2
      exact (cases2.2 _ rfl).1
    · intro hu
      rw [if_pos hu] at hs1
      subst hs1
      have hslot : alookup h (setData s.results h none) = some { r with data := none } := by
        rw [alookup_setData_self, hlook]
        rfl
      have hfind2 : findDataset (setData s.results h none) item = .ok (h, sl) := by
        rw [findDataset_setData]
        exact hfind
      have cases2 := getitem_ok_cases fs _ item h sl
        { r with data := none } o2 s2 n2 hnc hfind2 hslot hc2
      obtain ⟨hn2, a1, hload2, hs2⟩ := cases2.1 rfl
      have hslot2 : alookup h (setData (setData s.results h none) h none) =
          some { r with data := none } := by
        rw [setData_setData, alookup_setData_self, hlook]
        rfl
      refine ⟨by simp [hslot], ?_, hn2⟩
      rw [hs2]
      simp [hslot2, hu]
  | some a =>
    obtain ⟨hn1, hs1⟩ := cases1.2 a hdata
    constructor
    · intro hu
      rw [if_neg (by simp [hu])] at hs1
      subst hs1
      have hslot : alookup h ({ s with nextBuf := s.nextBuf + 1 } : ResultState).results =
          some r := hlook
      refine ⟨fun h0 => absurd h0 (by simp), ?_, ?_⟩
      · simp [hslot, hdata]
      · have hfind2 : findDataset ({ s with nextBuf := s.nextBuf + 1 } : ResultState).results
            item = .ok (h, sl) := hfind
        have cases2 := getitem_ok_cases fs _ item h sl r o2 s2 n2 hnc hfind2 hslot hc2
        exact (cases2.2 a hdata).1
    · intro hu
      rw [if_pos hu] at hs1
      subst hs1
      have hslot : alookup h (setData s.results h none) = some { r with data := none } := by
        rw [alookup_setData_self, hlook]
        rfl
      have hfind2 : findDataset (setData s.results h none) item = .ok (h, sl) := by
        rw [findDataset_setData]
        exact hfind
      have cases2 := getitem_ok_cases fs _ item h sl
        { r with data := none } o2 s2 n2 hnc hfind2 hslot hc2
      obtain ⟨hn2, a1, hload2, hs2⟩ := cases2.1 rfl
      have hslot2 : alookup h (setData (setData s.results h none) h none) =
          some { r with data := none } := by
        rw [setData_setData, alookup_setData_self, hlook]
        rfl
      refine ⟨by simp [hslot], ?_, hn2⟩
      rw [hs2]
      simp [hslot2, hu]

/-- Keyword dict of the C2 witness record. -/
def c2Kv : List (String × Value) :=
  [("FILE", .str "run.$04"), ("NDIMENS", .int 2), ("DIMENS", .intList [2, 3]),
   ("FORMAT", .str "<i4"), ("VARIAB", .strList ["A", "B"])]

/-- File system of the C2 witness: one 24-byte payload file. -/
def c2Fs : FileSys :=
  [("d/run.$04", [1,0,0,0, 2,0,0,0, 3,0,0,0, 4,0,0,0, 5,0,0,0, 6,0,0,0])]

/-- The C2 witness record before any call. -/
def c2Rec : HeaderRecord := { kv := c2Kv, data := none }

/-- Retain-mode starting state of the C2 witness. -/
def c2State0 : ResultState :=
  { resultDir := "d", resultPref := "run", unload := false,
    results := [("hdr", c2Rec)], nextBuf := 0 }

/-- Unload-mode starting state of the C2 witness. -/
def c2StateU : ResultState := { c2State0 with unload := true }

/-- State after the first retain-mode call: payload cached. -/
def c2S1 : ResultState :=
  { resultDir := "d", resultPref := "run", unload := false,
    results :=
      [("hdr",
        { kv := c2Kv, data := some { shape := [3, 2], flat := [1, 2, 3, 4, 5, 6], buf := 0 } })],
    nextBuf := 2 }

/-- State after the first unload-mode call: payload slot cleared. -/
def c2T1 : ResultState :=
  { resultDir := "d", resultPref := "run", unload := true,
    results := [("hdr", { kv := c2Kv, data := none })], nextBuf := 2 }

/-- State after the second unload-mode call: payload slot cleared again. -/
def c2T2 : ResultState :=
  { resultDir := "d", resultPref := "run", unload := true,
    results := [("hdr", { kv := c2Kv, data := none })], nextBuf := 4 }

/-- Witness for C2: in retain mode the concrete pair of calls reads once then
zero times with the slot filled in between; in unload mode the slot is empty
after each call and the second call reads again. -/
theorem c2_payload_cache_witness :
    ((c2Rec.data = none → 1 = 1) ∧
      ((alookup "hdr" c2S1.results).bind (fun q => q.data)).isSome ∧ 0 = 0) ∧
    ((alookup "hdr" c2T1.results).bind (fun q => q.data) = none ∧
     (alookup "hdr" c2T2.results).bind (fun q => q.data) = none ∧ 1 = 1) := by
  constructor
  · exact (c2_payload_cache c2Fs c2State0 "A" "hdr" (.s2 0) c2Rec
      (.arr2 { shape := [3, 1], flat := [1, 3, 5], buf := 1 })
      (.arr2 { shape := [3, 1], flat := [1, 3, 5], buf := 2 })
      c2S1 { c2S1 with nextBuf := 3 } 1 0
      (by decide) (by decide) (by decide) (by decide) (by decide)).1 rfl
  · exact (c2_payload_cache c2Fs c2StateU "A" "hdr" (.s2 0) c2Rec
      (.arr2 { shape := [3, 1], flat := [1, 3, 5], buf := 1 })
      (.arr2 { shape := [3, 1], flat := [1, 3, 5], buf := 3 })
      c2T1 c2T2 1 1
      (by decide) (by decide) (by decide) (by decide) (by decide)).2 rfl

/-! ## C8: copy semantics and frame effect -/

/-- Membership in an updated results list: every entry is either an
untouched entry with a different key or an entry with the touched key whose
payload slot was replaced. -/
theorem mem_setData {p : String × HeaderRecord} {rs : List (String × HeaderRecord)}
    {h : String} {d : Option NDArray} (hp : p ∈ setData rs h d) :
    (∃ q ∈ rs, q.1 ≠ h ∧ p = q) ∨
    (∃ q ∈ rs, q.1 = h ∧ p = (q.1, { q.2 with data := d })) := by
  unfold setData at hp
  obtain ⟨q, hq, hpq⟩ := List.mem_map.mp hp
  by_cases hqh : q.1 = h
  · right
    exact ⟨q, hq, hqh, by rw [← hpq]; simp [hqh]⟩
  · left
    exact ⟨q, hq, hqh, by rw [← hpq]; simp [hqh]⟩

/-- C8: a successful `get` on a binary dataset returns an array whose buffer
is distinct from the buffer of every payload cached in the resulting state —
the caller holds a copy, so mutating it cannot change the cache or later
results — and it modifies no record other than the resolved header's payload
slot: every other key still looks up to its old record, and the resolved
key's keyword dict is unchanged. -/
theorem c8_copy_and_frame (fs : FileSys) (s : ResultState) (item h : String) (sl : DSlice)
    (r : HeaderRecord) (g : GetOut) (s' : ResultState) (n : Nat)
    (hnc : ¬ item = "Campbell diagram")
    (hfind : findDataset s.results item = .ok (h, sl))
    (hlook : alookup h s.results = some r)
    (hget : getitem fs s item = (.ok g, s', n))
    (hbufs : ∀ p ∈ s.results, ∀ a, p.2.data = some a → a.buf < s.nextBuf) :
    (∀ k2, k2 ≠ h → alookup k2 s'.results = alookup k2 s.results) ∧
    (∃ r2, alookup h s'.results = some r2 ∧ r2.kv = r.kv) ∧
    (∀ c : NDArray, (g = .arr2 c ∨ ∃ hdr, g = .arr3 c hdr) →
      ∀ p ∈ s'.results, ∀ a2, p.2.data = some a2 → a2.buf ≠ c.buf) := by
  cases hdata : r.data with
  | some a =>
    cases hsl : npIndexSlice a sl with
    | error e =>
      rw [getitem_cached_slice_error fs s item h sl r a e hnc hfind hlook hdata hsl] at hget
      simp at hget
    | ok view =>
      rw [getitem_cached fs s item h sl r a view hnc hfind hlook hdata hsl] at hget
      simp only [Prod.mk.injEq] at hget
      obtain ⟨hX, hY, hn⟩ := hget
      have hcbuf : ∀ c : NDArray, (g = .arr2 c ∨ ∃ hdr, g = .arr3 c hdr) →
          c.buf = s.nextBuf := by
        intro c hc
        by_cases hnd : dictGet r.kv "NDIMENS" = some (.int 3)
        · rw [if_pos hnd] at hX
          injection hX with hX2
          rcases hc with hc | ⟨hdr0, hc⟩
          · rw [← hX2] at hc
            exact GetOut.noConfusion hc
          · rw [← hX2] at hc
            injection hc with hc1 hc2
            rw [← hc1]
        · rw [if_neg hnd] at hX
          injection hX with hX2
          rcases hc with hc | ⟨hdr0, hc⟩
          · rw [← hX2] at hc
            injection hc with hc1
            rw [← hc1]
          · rw [← hX2] at hc
            exact GetOut.noConfusion hc
      cases hu : s.unload with
      | true =>
        have hs' : s' = { s with results := setData s.results h none, nextBuf := s.nextBuf + 1 } := by
          rw [← hY, if_pos hu]
        refine ⟨?_, ?_, ?_⟩
        · intro k2 hk2
          rw [hs']
          exact alookup_setData_other s.results h k2 none hk2
        · rw [hs']
          refine ⟨{ r with data := none }, ?_, rfl⟩
          show alookup h (setData s.results h none) = _
          rw [alookup_setData_self, hlook]
          rfl
        · intro c hc p hp a2 hpa2
          rw [hcbuf c hc]
          rw [hs'] at hp
          rcases mem_setData hp with ⟨q, hq, _, hpq⟩ | ⟨q, hq, _, hpq⟩
          · rw [hpq] at hpa2
            have := hbufs q hq a2 hpa2
            omega
          · rw [hpq] at hpa2
            simp at hpa2
      | false =>
        have hs' : s' = { s with nextBuf := s.nextBuf + 1 } := by
          rw [← hY, if_neg (by simp [hu])]
        refine ⟨?_, ?_, ?_⟩
        · intro k2 hk2
          rw [hs']
        · rw [hs']
          exact ⟨r, hlook, rfl⟩
        · intro c hc p hp a2 hpa2
          rw [hcbuf c hc]
          rw [hs'] at hp
          have := hbufs p hp a2 hpa2
          omega
  | none =>
    cases hload : loadDataset fs s.resultDir s.results h with
    | error e =>
      rw [getitem_load_error fs s item h sl r e hnc hfind hlook hdata hload] at hget
      simp at hget
    | ok a0 =>
      cases hsl : npIndexSlice { a0 with buf := s.nextBuf } sl with
      | error e =>
        rw [getitem_load_slice_error fs s item h sl r a0 e hnc hfind hlook hdata hload hsl]
          at hget
        simp at hget
      | ok view =>
        rw [getitem_load fs s item h sl r a0 view hnc hfind hlook hdata hload hsl] at hget
        simp only [Prod.mk.injEq] at hget
        obtain ⟨hX, hY, hn⟩ := hget
        have hcbuf : ∀ c : NDArray, (g = .arr2 c ∨ ∃ hdr, g = .arr3 c hdr) →
            c.buf = s.nextBuf + 1 := by
          intro c hc
          by_cases hnd : dictGet r.kv "NDIMENS" = some (.int 3)
          · rw [if_pos hnd] at hX
            injection hX with hX2
            rcases hc with hc | ⟨hdr0, hc⟩
            · rw [← hX2] at hc
              exact GetOut.noConfusion hc
            · rw [← hX2] at hc
              injection hc with hc1 hc2
              rw [← hc1]
          · rw [if_neg hnd] at hX
            injection hX with hX2
            rcases hc with hc | ⟨hdr0, hc⟩
            · rw [← hX2] at hc
              injection hc with hc1
              rw [← hc1]
            · rw [← hX2] at hc
              exact GetOut.noConfusion hc
        cases hu : s.unload with
        | true =>
          have hs' : s' = { s with results := setData s.results h none, nextBuf := s.nextBuf + 1 + 1 } := by
            rw [← hY, if_pos hu]
          refine ⟨?_, ?_, ?_⟩
          · intro k2 hk2
            rw [hs']
            exact alookup_setData_other s.results h k2 none hk2
          · rw [hs']
            refine ⟨{ r with data := none }, ?_, rfl⟩
            show alookup h (setData s.results h none) = _
            rw [alookup_setData_self, hlook]
            rfl
          · intro c hc p hp a2 hpa2
            rw [hcbuf c hc]
            rw [hs'] at hp
            rcases mem_setData hp with ⟨q, hq, _, hpq⟩ | ⟨q, hq, _, hpq⟩
            · rw [hpq] at hpa2
              have := hbufs q hq a2 hpa2
              omega
            · rw [hpq] at hpa2
              simp at hpa2
        | false =>
          have hs' : s' = { s with results := setData s.results h (some { a0 with buf := s.nextBuf }), nextBuf := s.nextBuf + 1 + 1 } := by
            rw [← hY, if_neg (by simp [hu])]
          refine ⟨?_, ?_, ?_⟩
          · intro k2 hk2
            rw [hs']
            exact alookup_setData_other s.results h k2 _ hk2
          · rw [hs']
            refine ⟨{ r with data := some { a0 with buf := s.nextBuf } }, ?_, rfl⟩
            show alookup h (setData s.results h (some { a0 with buf := s.nextBuf })) = _
            rw [alookup_setData_self, hlook]
            rfl
          · intro c hc p hp a2 hpa2
            rw [hcbuf c hc]
            rw [hs'] at hp
            rcases mem_setData hp with ⟨q, hq, _, hpq⟩ | ⟨q, hq, _, hpq⟩
            · rw [hpq] at hpa2
              have := hbufs q hq a2 hpa2
              omega
            · rw [hpq] at hpa2
              simp only [Option.some.injEq] at hpa2
              rw [← hpa2]
              simp

/-- Keyword dict of the C8 witness's resolved header. -/
def c8Kv : List (String × Value) :=
  [("FILE", .str "run.$04"), ("NDIMENS", .int 2), ("DIMENS", .intList [2, 3]),
   ("FORMAT", .str "<i4"), ("VARIAB", .strList ["A", "B"])]

/-- Keyword dict of the C8 witness's bystander header. -/
def c8Kv2 : List (String × Value) :=
  [("FILE", .str "run.$05"), ("NDIMENS", .int 2), ("DIMENS", .intList [1, 3]),
   ("FORMAT", .str "<i4"), ("VARIAB", .strList ["C"])]

/-- Cached payload of the resolved header in the C8 witness. -/
def c8Arr : NDArray := { shape := [3, 2], flat := [1, 2, 3, 4, 5, 6], buf := 0 }

/-- Cached payload of the bystander header in the C8 witness. -/
def c8ArrB : NDArray := { shape := [3, 1], flat := [7, 8, 9], buf := 1 }

/-- Resolved header record of the C8 witness. -/
def c8Rec : HeaderRecord := { kv := c8Kv, data := some c8Arr }

/-- Bystander header record of the C8 witness. -/
def c8RecB : HeaderRecord := { kv := c8Kv2, data := some c8ArrB }

/-- Starting state of the C8 witness: both payloads already cached. -/
def c8State : ResultState :=
  { resultDir := "d", resultPref := "run", unload := false,
    results := [("hdr", c8Rec), ("hdr2", c8RecB)], nextBuf := 2 }

/-- State after the C8 witness call. -/
def c8SOut : ResultState := { c8State with nextBuf := 3 }

/-- Array returned by the C8 witness call. -/
def c8View : NDArray := { shape := [3, 1], flat := [1, 3, 5], buf := 2 }

/-- Witness for C8: on a concrete two-header state, getting variable A leaves
the bystander record untouched, keeps the resolved header's keyword dict,
and returns an array whose buffer differs from every cached buffer. -/
theorem c8_copy_and_frame_witness :
    alookup "hdr2" c8SOut.results = alookup "hdr2" c8State.results ∧
    (∃ r2, alookup "hdr" c8SOut.results = some r2 ∧ r2.kv = c8Rec.kv) ∧
    (∀ p ∈ c8SOut.results, ∀ a2, p.2.data = some a2 → a2.buf ≠ c8View.buf) := by
  have h := c8_copy_and_frame [] c8State "A" "hdr" (.s2 0) c8Rec (.arr2 c8View) c8SOut 0
    (by decide) (by decide) (by decide) (by decide)
    (by
      intro p hp a hpa
      have hps : p = ("hdr", c8Rec) ∨ p = ("hdr2", c8RecB) := by
        simpa [c8State, List.mem_cons] using hp
      rcases hps with h1 | h1
      · rw [h1] at hpa
        rw [show ("hdr", c8Rec).2.data = some c8Arr from rfl] at hpa
        injection hpa with ha
        rw [← ha]
        decide
      · rw [h1] at hpa
        rw [show ("hdr2", c8RecB).2.data = some c8ArrB from rfl] at hpa
        injection hpa with ha
        rw [← ha]
        decide)
  exact ⟨h.1 "hdr2" (by decide), h.2.1, h.2.2 c8View (Or.inl rfl)⟩

/-! ## C10: independence from the participation-shape file -/

/-- Strings of different lengths are different. -/
theorem str_ne_of_len {a b : String} (h : a.length ≠ b.length) : a ≠ b :=
  fun he => h (he ▸ rfl)

/-- The `.$CM` companion path never coincides with the `.$shape` companion
path of the same run. -/
theorem joinPath_cm_ne_shape (dir pref : String) :
    joinPath dir (pref ++ ".$CM") ≠ joinPath dir (pref ++ ".$shape") := by
  have h4 : ".$CM".length = 4 := rfl
  have h7 : ".$shape".length = 7 := rfl
  have hlen : (pref ++ ".$CM").length ≠ (pref ++ ".$shape").length := by
    simp only [String.length_append, h4, h7]
    omega
  have key : ∀ a : String, a ++ (pref ++ ".$CM") ≠ a ++ (pref ++ ".$shape") := by
    intro a
    refine str_ne_of_len ?_
    simp only [String.length_append, h4, h7]
    omega
  have hhead : ((pref ++ ".$CM").data.head? = some '/') ↔
      ((pref ++ ".$shape").data.head? = some '/') := by
    rw [String.data_append, String.data_append]
    cases hd : pref.data with
    | nil => decide
    | cons c cs => exact Iff.rfl
  unfold joinPath
  by_cases h1 : (pref ++ ".$CM").data.head? = some '/'
  · rw [if_pos h1, if_pos (hhead.mp h1)]
    exact str_ne_of_len hlen
  · rw [if_neg h1, if_neg (fun hh => h1 (hhead.mpr hh))]
    by_cases h2 : dir = ""
    · rw [if_pos h2, if_pos h2]
      exact str_ne_of_len hlen
    · rw [if_neg h2, if_neg h2]
      by_cases h3 : dir.data.getLast? = some '/'
      · rw [if_pos h3, if_pos h3]
        exact key dir
      · rw [if_neg h3, if_neg h3]
        exact key (dir ++ "/")

/-- `_load_campbell_data_CM` touches the file system only at the `.$CM`
path. -/
theorem loadCampbellCM_congr (fs1 fs2 : FileSys) (dir pref : String)
    (h : alookup (joinPath dir (pref ++ ".$CM")) fs1 =
         alookup (joinPath dir (pref ++ ".$CM")) fs2) :
    loadCampbellCM fs1 dir pref = loadCampbellCM fs2 dir pref := by
  unfold loadCampbellCM
  rw [h]

/-- `_load_dataset` touches the file system only at the resolved record's
FILE path. -/
theorem loadDataset_congr (fs1 fs2 : FileSys) (dir : String)
    (results : List (String × HeaderRecord)) (h : String)
    (hag : ∀ r, alookup h results = some r → ∀ f, dictGet r.kv "FILE" = some (.str f) →
      alookup (joinPath dir f) fs1 = alookup (joinPath dir f) fs2) :
    loadDataset fs1 dir results h = loadDataset fs2 dir results h := by
  unfold loadDataset
  cases hr : alookup h results with
  | none => rfl
  | some r =>
    cases hf : dictGet r.kv "FILE" with
    | none => simp only [hf]
    | some v =>
      cases v with
      | str f => simp only [hf, hag r hr f hf]
      | strList xs => simp only [hf]
      | int i => simp only [hf]
      | intList xs => simp only [hf]
      | float x => simp only [hf]
      | floatList xs => simp only [hf]

/-- Keyword dict of the C10 counterexample: the FILE field names the
participation-shape companion file itself. -/
def c10Kv : List (String × Value) :=
  [("FILE", .str "run.$shape"), ("NDIMENS", .int 2), ("DIMENS", .intList [1, 1]),
   ("FORMAT", .str "<i4"), ("VARIAB", .strList ["A"])]

/-- State of the C10 counterexample. -/
def c10State : ResultState :=
  { resultDir := "d", resultPref := "run", unload := false,
    results := [("hdr", { kv := c10Kv, data := none })], nextBuf := 0 }

/-- First file system of the C10 counterexample: only the shape file. -/
def c10Fs1 : FileSys := [("d/run.$shape", [1, 0, 0, 0])]

/-- Second file system of the C10 counterexample: same shape file path,
different contents. -/
def c10Fs2 : FileSys := [("d/run.$shape", [2, 0, 0, 0])]

/-- Counterexample to C10 as stated: two file systems whose only file is the
`<prefix>.$shape` participation-shape file — so they are identical except for
that file's contents — give different get results, because a header whose
FILE field names `run.$shape` makes the binary loader read that very file. -/
theorem c10_shape_file_counterexample :
    c10Fs1.map Prod.fst = [joinPath c10State.resultDir (c10State.resultPref ++ ".$shape")] ∧
    c10Fs2.map Prod.fst = [joinPath c10State.resultDir (c10State.resultPref ++ ".$shape")] ∧
    getitem c10Fs1 c10State "A" ≠ getitem c10Fs2 c10State "A" := by decide

/-- C10 amended: get is independent of the presence and contents of the
`<prefix>.$shape` participation-shape file PROVIDED no Header Record's FILE
field resolves to that path.  The participation-shape reader itself is indeed
never invoked by get — the only file-system accesses are the `.$CM` companion
(whose path provably differs from the shape path) and the resolved record's
FILE path — but without the proviso the claim fails, as the counterexample
shows. -/
theorem c10_shape_independence_amended (fs1 fs2 : FileSys) (s : ResultState) (item : String)
    (hagree : ∀ p, p ≠ joinPath s.resultDir (s.resultPref ++ ".$shape") →
      alookup p fs1 = alookup p fs2)
    (hfiles : ∀ q ∈ s.results, ∀ f, dictGet q.2.kv "FILE" = some (.str f) →
      joinPath s.resultDir f ≠ joinPath s.resultDir (s.resultPref ++ ".$shape")) :
    getitem fs1 s item = getitem fs2 s item := by
  have hload : ∀ h, loadDataset fs1 s.resultDir s.results h =
      loadDataset fs2 s.resultDir s.results h := by
    intro h
    apply loadDataset_congr
    intro r hr f hf
    exact hagree _ (hfiles (h, r) (alookup_mem hr) f hf)
  unfold getitem
  by_cases hc : item = "Campbell diagram"
  · rw [if_pos hc, if_pos hc,
      loadCampbellCM_congr fs1 fs2 s.resultDir s.resultPref
        (hagree _ (joinPath_cm_ne_shape s.resultDir s.resultPref))]
  · rw [if_neg hc, if_neg hc]
    cases hfind : findDataset s.results item with
    | error e => rfl
    | ok pr =>
      obtain ⟨h, sl⟩ := pr
      cases hr : alookup h s.results with
      | none => simp only [hr]
      | some r =>
        cases hd : r.data with
        | some a => simp only [hr, hd]
        | none => simp only [hr, hd, hload h]

/-- Keyword dict of the C10 witness: FILE names an ordinary payload file. -/
def c10WKv : List (String × Value) :=
  [("FILE", .str "run.$04"), ("NDIMENS", .int 2), ("DIMENS", .intList [1, 1]),
   ("FORMAT", .str "<i4"), ("VARIAB", .strList ["A"])]

/-- State of the C10 witness. -/
def c10WState : ResultState :=
  { resultDir := "d", resultPref := "run", unload := false,
    results := [("hdr", { kv := c10WKv, data := none })], nextBuf := 0 }

/-- File system of the C10 witness with a shape file present. -/
def c10WFs1 : FileSys := [("d/run.$04", [5, 0, 0, 0]), ("d/run.$shape", [9])]

/-- File system of the C10 witness with the shape file absent. -/
def c10WFs2 : FileSys := [("d/run.$04", [5, 0, 0, 0])]

/-- Witness for the amended C10: on a concrete state whose only header reads
`run.$04`, adding or removing the `run.$shape` file does not change the get
result. -/
theorem c10_shape_independence_amended_witness :
    getitem c10WFs1 c10WState "A" = getitem c10WFs2 c10WState "A" := by
  apply c10_shape_independence_amended
  · intro p hp
    have hshape : joinPath c10WState.resultDir (c10WState.resultPref ++ ".$shape") =
        "d/run.$shape" := by decide
    rw [hshape] at hp
    by_cases h1 : p = "d/run.$04"
    · subst h1
      decide
    · have step1 : alookup p c10WFs1 =
          if p = "d/run.$04" then some [5, 0, 0, 0]
          else if p = "d/run.$shape" then some [9] else none := rfl
      have step2 : alookup p c10WFs2 =
          if p = "d/run.$04" then some [5, 0, 0, 0] else none := rfl
      rw [step1, step2, if_neg h1, if_neg h1, if_neg hp]
  · intro q hq f hf
    have hq2 : q = ("hdr", { kv := c10WKv, data := none }) := by
      simpa [c10WState] using hq
    rw [hq2] at hf
    have h0 : (some (Value.str "run.$04") : Option Value) = some (.str f) := by
      rw [← hf]
      decide
    injection h0 with h1
    injection h1 with h2
    rw [← h2]
    decide
